import Mathlib

/-!
Verification of the Python_Custom_WSGI server against its natural-language
specification.  The Python sources under `src/` are shallowly embedded as
executable Lean definitions: bytes are `Nat` (values < 256), Python `str` is
`String`, Python dicts are association lists with last-write-wins update, and
Python floats (used only by the rate limiter) are modelled as `ℚ`.  Each
definition mirrors one Python function and keeps its name where Lean allows.
-/

/-! ## Shared helpers -/

/-- Association-list lookup, mirroring Python `d.get(k)`. -/
def dget {κ α : Type} [DecidableEq κ] (m : List (κ × α)) (k : κ) : Option α :=
  match m with
  | [] => none
  | (k', v) :: rest => if k' = k then some v else dget rest k

/-- Association-list update, mirroring Python `d[k] = v`: replaces the value
in place when the key is present, otherwise appends (Python dicts keep
insertion order). -/
def dset {κ α : Type} [DecidableEq κ] (m : List (κ × α)) (k : κ) (v : α) :
    List (κ × α) :=
  match m with
  | [] => [(k, v)]
  | (k', v') :: rest =>
      if k' = k then (k, v) :: rest else (k', v') :: dset rest k v

/-- Association-list removal, mirroring Python `d.pop(k, None)`. -/
def dpop {κ α : Type} [DecidableEq κ] (m : List (κ × α)) (k : κ) :
    List (κ × α) :=
  m.filter (fun p => p.1 ≠ k)

/-- Split a list at the first occurrence of `sep`, mirroring Python
`xs.split(sep, 1)`: `some (before, after)` when `sep` occurs, `none`
otherwise. -/
def splitFirst {α : Type} [DecidableEq α] (sep : List α) :
    List α → Option (List α × List α)
  | [] => if sep.isPrefixOf ([] : List α) then some ([], []) else none
  | c :: rest =>
      if sep.isPrefixOf (c :: rest) then some ([], (c :: rest).drop sep.length)
      else (splitFirst sep rest).map (fun p => (c :: p.1, p.2))

/-- Split a character list at every `"\r\n"`, mirroring Python
`bs.split(b'\r\n')`. -/
def splitLines : List Char → List (List Char)
  | '\r' :: '\n' :: rest => [] :: splitLines rest
  | c :: rest =>
      match splitLines rest with
      | [] => [[c]]
      | l :: ls => (c :: l) :: ls
  | [] => [[]]

/-- Python `str.strip()` / `bytes.strip()` restricted to the ASCII
whitespace that can occur in a header line. -/
def pyStrip (s : List Char) : List Char :=
  (s.dropWhile Char.isWhitespace).reverse.dropWhile Char.isWhitespace |>.reverse

/-- Python `bytes.lower()` on a character list (ASCII case folding). -/
def charsLower (s : List Char) : List Char := s.map Char.toLower

/-- Python `str.lower()` (ASCII case folding on the character data). -/
def strLower (s : String) : String := String.mk (s.toList.map Char.toLower)

/-- Split a character list at every occurrence of the character `c`,
mirroring Python `s.split(sep)` for a one-character separator. -/
def splitOnChar (c : Char) : List Char → List (List Char)
  | [] => [[]]
  | x :: rest =>
      match splitOnChar c rest with
      | [] => [[]]
      | l :: ls => if x = c then [] :: l :: ls else (x :: l) :: ls

/-- Digits-only decimal parse; `none` mirrors a Python `ValueError`. -/
def digitsToNat (ds : List Char) : Option Nat :=
  if ds ≠ [] ∧ ds.all Char.isDigit then
    some (ds.foldl (fun n c => n * 10 + (c.toNat - 48)) 0)
  else none

/-- Python `int(bytes)` for a stripped numeric literal: optional sign
followed by decimal digits. -/
def pyInt? (s : List Char) : Option Int :=
  match s with
  | '-' :: ds => (digitsToNat ds).map (fun n => -(n : Int))
  | '+' :: ds => (digitsToNat ds).map (fun n => (n : Int))
  | ds => (digitsToNat ds).map (fun n => (n : Int))

/-- Big-endian `int.to_bytes(len, 'big')` (values as `Nat`s below 256). -/
def natToBytesBE (n : Nat) (len : Nat) : List Nat :=
  match len with
  | 0 => []
  | l + 1 => natToBytesBE (n / 256) l ++ [n % 256]

/-- Python `bytes.decode('ascii')`: succeeds exactly when every byte is
below 128; the result is the corresponding character string. -/
def decodeAscii (bs : List Nat) : Option String :=
  if bs.all (· < 128) then some (String.mk (bs.map Char.ofNat)) else none

/-! ## src/src/features/security.py — IPFilter (claim C9)

The Python code delegates address parsing to the standard `ipaddress`
module; that external collaborator is modelled here for IPv4 addresses
(dotted quad, each octet `0..255`, digits only, no leading zeros) and
IPv4 networks (address plus prefix length, host bits masked).  An IPv4
address is represented as its 32-bit value, a `Nat < 2^32`. -/

/-- Parse one decimal octet as Python `ipaddress` does: non-empty, digits
only, no leading zero (except "0" itself), value at most 255. -/
def parseOctet (s : List Char) : Option Nat :=
  if s.length = 0 then none
  else if ¬ (s.all Char.isDigit) then none
  else if s.length > 1 ∧ s.head? = some '0' then none
  else match digitsToNat s with
    | some n => if n ≤ 255 then some n else none
    | none => none

/-- Parse a dotted-quad IPv4 address to its 32-bit value; `none` mirrors the
`ValueError` that Python's `ip_address` raises on invalid input. -/
def parseIPv4 (s : String) : Option Nat :=
  match splitOnChar '.' s.toList with
  | [a, b, c, d] =>
      match parseOctet a, parseOctet b, parseOctet c, parseOctet d with
      | some x, some y, some z, some w => some (((x * 256 + y) * 256 + z) * 256 + w)
      | _, _, _, _ => none
  | _ => none

/-- An IPv4 network is its (masked) network address together with a prefix
length; `a ∈ network` compares the two addresses shifted right by the host
bits, as `ipaddress` membership does. -/
def ipInNetwork (a : Nat) (nw : Nat × Nat) : Bool :=
  a / 2 ^ (32 - nw.2) = nw.1 / 2 ^ (32 - nw.2)

/-- State of `security.IPFilter`: sets of single addresses and lists of
networks for the whitelist and the blacklist. -/
structure IPFilter where
  whitelist_ips : List Nat
  blacklist_ips : List Nat
  whitelist_networks : List (Nat × Nat)
  blacklist_networks : List (Nat × Nat)

/-- `IPFilter.__init__`: empty whitelist and blacklist. -/
def IPFilter.empty : IPFilter := ⟨[], [], [], []⟩

/-- `IPFilter.is_allowed`: invalid addresses are always blocked; when the
whitelist (addresses or networks) is non-empty only whitelisted addresses
are allowed; otherwise an address is allowed unless some blacklist entry
matches it. -/
def IPFilter.is_allowed (f : IPFilter) (ip : String) : Bool :=
  match parseIPv4 ip with
  | none => false
  | some a =>
      if !f.whitelist_ips.isEmpty || !f.whitelist_networks.isEmpty then
        f.whitelist_ips.contains a || f.whitelist_networks.any (ipInNetwork a)
      else
        if f.blacklist_ips.contains a then false
        else if f.blacklist_networks.any (ipInNetwork a) then false
        else true

/-! ## src/src/features/security.py — RateLimiter (claim C10)

Token-bucket rate limiter.  Python stores tokens and timestamps as floats;
they are modelled as `ℚ`.  `time.time()` is an input (`now`). -/

/-- State of `security.RateLimiter`. -/
structure RateLimiter where
  rate : ℚ
  burst : ℚ
  tokens : List (String × ℚ)
  last_update : List (String × ℚ)
  cleanup_interval : ℚ
  last_cleanup : ℚ
  max_entries : Nat

/-- `RateLimiter._cleanup`: drop entries older than three bucket refills,
then, if still above capacity, drop the oldest entries (Python sorts the
`last_update` items by timestamp; modelled with a stable insertion sort),
and record the cleanup time. -/
def RateLimiter.cleanup (rl : RateLimiter) (now : ℚ) : RateLimiter :=
  let expiration_time : ℚ := 3 * rl.burst / rl.rate
  let expired := (rl.last_update.filter
    (fun p => now - p.2 > expiration_time)).map Prod.fst
  let tokens1 := rl.tokens.filter (fun p => ¬ expired.contains p.1)
  let last1 := rl.last_update.filter (fun p => ¬ expired.contains p.1)
  if tokens1.length > rl.max_entries then
    let sorted := last1.insertionSort (fun a b => a.2 ≤ b.2)
    let oldest := (sorted.take (tokens1.length - rl.max_entries)).map Prod.fst
    { rl with
      tokens := tokens1.filter (fun p => ¬ oldest.contains p.1)
      last_update := last1.filter (fun p => ¬ oldest.contains p.1)
      last_cleanup := now }
  else
    { rl with tokens := tokens1, last_update := last1, last_cleanup := now }

/-- The "Initialize or update tokens" section of `RateLimiter.is_allowed`:
a fresh address starts with a full bucket; a tracked address is refilled
by the clamped elapsed time times the rate, capped at `burst`. -/
def RateLimiter.refill (rl : RateLimiter) (ip : String) (now : ℚ) : RateLimiter :=
  match dget rl.tokens ip with
  | none =>
      { rl with
        tokens := dset rl.tokens ip rl.burst
        last_update := dset rl.last_update ip now }
  | some cur =>
      let tp := now - (dget rl.last_update ip).getD 0
      let tp := if tp < 0 then 0
        else if tp > rl.cleanup_interval then rl.cleanup_interval else tp
      { rl with
        tokens := dset rl.tokens ip (min rl.burst (cur + tp * rl.rate))
        last_update := dset rl.last_update ip now }

/-- The "Check if enough tokens and consume one" section of
`RateLimiter.is_allowed`. -/
def RateLimiter.takeToken (rl : RateLimiter) (ip : String) : Bool × RateLimiter :=
  let t := (dget rl.tokens ip).getD 0
  if t ≥ 1 then (true, { rl with tokens := dset rl.tokens ip (t - 1) })
  else (false, rl)

/-- Token refill and consumption: the part of `RateLimiter.is_allowed` after
the capacity check ("Initialize or update tokens" onwards). -/
def RateLimiter.consume (rl : RateLimiter) (ip : String) (now : ℚ) :
    Bool × RateLimiter :=
  (rl.refill ip now).takeToken ip

/-- `RateLimiter.is_allowed`: periodic cleanup, capacity guard with emergency
cleanup for an untracked address at capacity, then token refill/consumption. -/
def RateLimiter.is_allowed (rl : RateLimiter) (ip : String) (now : ℚ) :
    Bool × RateLimiter :=
  let rl := if now - rl.last_cleanup > rl.cleanup_interval then rl.cleanup now else rl
  if (dget rl.tokens ip).isNone ∧ rl.tokens.length ≥ rl.max_entries then
    let rl2 := rl.cleanup now
    if rl2.tokens.length ≥ rl2.max_entries then (false, rl2)
    else rl2.consume ip now
  else rl.consume ip now

/-- Every token count tracked by the limiter lies in `[0, burst]`. -/
def TokensBounded (rl : RateLimiter) : Prop :=
  ∀ p ∈ rl.tokens, 0 ≤ p.2 ∧ p.2 ≤ rl.burst

/-- A sequence of `is_allowed` calls, each with its address and clock
reading, threading the limiter state. -/
def runRateCalls (rl : RateLimiter) : List (String × ℚ) → RateLimiter
  | [] => rl
  | (ip, now) :: rest => runRateCalls (rl.is_allowed ip now).2 rest

/-! ## src/src/core/http_parser.py — HTTPParser (claim C4)

Callback state of `http_parser.HTTPParser`.  `httptools` itself is the
external C parser; the repository's validation logic lives in the
`on_header` / `on_body` / `_process_chunk` callbacks embedded here.  A
raised `HTTPParserError` is modelled as `Except.error` carrying the
error message. -/

/-- Mutable state of `HTTPParser` (the fields the callbacks touch).
`_chunked` is initialized `False` and never assigned `True` anywhere in the
repository, so the chunked branch of `on_body` is dead code; it is embedded
nonetheless.  `_chunk_size` is an `Int` because the Python decrement can
drive it negative. -/
structure HTTPParser where
  headers : List (String × String)
  body : List Nat
  headers_count : Nat
  chunked : Bool
  chunk_size : Int
  parsing_complete : Bool
  body_bytes_read : Nat

/-- `HTTPParser.__init__` / `HTTPParser.reset`. -/
def HTTPParser.init : HTTPParser :=
  ⟨[], [], 0, false, 0, false, 0⟩

/-- `HTTPParser.MAX_BODY_SIZE` (10MB). -/
def MAX_BODY_SIZE : Nat := 10485760

/-- `HTTPParser.MAX_HEADER_SIZE` (8KB per header value). -/
def MAX_HEADER_SIZE : Nat := 8192

/-- `HTTPParser.MAX_HEADERS`. -/
def MAX_HEADERS : Nat := 100

/-- `HTTPParser.on_header`: enforces the header-count ceiling, ASCII-only
names and values, the 256-byte name ceiling, the 8KB value ceiling and the
no-embedded-CR/LF rule, in the order the Python code checks them; on
success stores the header (dict semantics: last value wins) and bumps the
count. -/
def HTTPParser.on_header (st : HTTPParser) (name value : List Nat) :
    Except String HTTPParser :=
  if st.headers_count ≥ MAX_HEADERS then .error "Too many headers"
  else match decodeAscii name with
  | none => .error "Invalid header encoding"
  | some name_str =>
      if name_str.length > 256 then .error "Header name too long"
      else match decodeAscii value with
      | none => .error "Invalid header encoding"
      | some value_str =>
          if value_str.length > MAX_HEADER_SIZE then .error "Header value too long"
          else if value_str.toList.contains '\n' ∨ value_str.toList.contains '\r' then
            .error "Invalid header value"
          else .ok { st with
            headers := dset st.headers name_str value_str
            headers_count := st.headers_count + 1 }

/-- `HTTPParser._process_chunk` (dead code: `_chunked` is never `True`).
When `chunk_size = 0` the incoming bytes are parsed as a hex chunk-size
line; otherwise they are appended to the body under the 10MB ceiling. -/
def HTTPParser.process_chunk (st : HTTPParser) (chunk : List Nat) :
    Except String HTTPParser :=
  if st.chunk_size = 0 then
    let chunk_line := match splitFirst [13, 10] chunk with
      | some (pre, _) => pre
      | none => chunk
    let size_part := match splitFirst [59] chunk_line with
      | some (pre, _) => pre
      | none => chunk_line
    let hexDigitVal : Nat → Option Nat := fun b =>
      if 48 ≤ b ∧ b ≤ 57 then some (b - 48)
      else if 97 ≤ b ∧ b ≤ 102 then some (b - 87)
      else if 65 ≤ b ∧ b ≤ 70 then some (b - 55)
      else none
    let parsed := if size_part = [] then none else
      size_part.foldl (fun acc b => match acc, hexDigitVal b with
        | some n, some d => some (n * 16 + d)
        | _, _ => none) (some 0)
    match parsed with
    | none => .error "Invalid chunk encoding"
    | some n =>
        .ok { st with chunk_size := n, parsing_complete := n = 0 ∨ st.parsing_complete }
  else
    if st.body.length + chunk.length > MAX_BODY_SIZE then
      .error "Request body too large"
    else .ok { st with
      body := st.body ++ chunk
      body_bytes_read := st.body_bytes_read + chunk.length
      chunk_size := st.chunk_size - chunk.length }

/-- `HTTPParser.on_body`: chunked requests go through `_process_chunk`
(dead branch), otherwise the chunk is appended to the accumulated body
unless that would exceed the 10MB ceiling. -/
def HTTPParser.on_body (st : HTTPParser) (chunk : List Nat) :
    Except String HTTPParser :=
  if st.chunked then st.process_chunk chunk
  else if st.body.length + chunk.length > MAX_BODY_SIZE then
    .error "Request body too large"
  else .ok { st with
    body := st.body ++ chunk
    body_bytes_read := st.body_bytes_read + chunk.length }

/-- Feed a whole header block through `on_header`, propagating the first
error, as `httptools` does while parsing a request's header section. -/
def HTTPParser.runHeaders (st : HTTPParser) :
    List (List Nat × List Nat) → Except String HTTPParser
  | [] => .ok st
  | (n, v) :: rest =>
      match st.on_header n v with
      | .error e => .error e
      | .ok st' => st'.runHeaders rest

/-- Feed a sequence of body chunks through `on_body`, propagating the first
error. -/
def HTTPParser.runBody (st : HTTPParser) :
    List (List Nat) → Except String HTTPParser
  | [] => .ok st
  | c :: rest =>
      match st.on_body c with
      | .error e => .error e
      | .ok st' => st'.runBody rest

/-- Feeding one HTTP/1.1 request to the codec: all headers, then all body
chunks. -/
def HTTPParser.runRequest (st : HTTPParser)
    (hs : List (List Nat × List Nat)) (body : List (List Nat)) :
    Except String HTTPParser :=
  match st.runHeaders hs with
  | .error e => .error e
  | .ok st' => st'.runBody body

/-! ## src/src/features/http2.py — HTTP2Stream and HTTP2Connection
(claims C2, C3)

Frames already read off the wire (`_read_frame` output) are `(type, flags,
stream id, payload)` tuples.  Writes performed through `_send_frame` are
recorded in a `sent` list.  HPACK decoding is the external `hpack`
library; it enters the embedding as a `decode` function parameter. -/

/-- One HTTP/2 frame as `_read_frame` returns it and `_send_frame`
serializes it. -/
structure H2Frame where
  typ : Nat
  flags : Nat
  sid : Nat
  payload : List Nat
deriving DecidableEq

/-- State of `HTTP2Stream`. -/
structure HTTP2Stream where
  stream_id : Nat
  state : String
  headers : List (String × String)
  data : List Nat
  response_headers : List (String × String)
  response_data : List Nat
deriving DecidableEq

/-- `HTTP2Stream.__init__`. -/
def HTTP2Stream.init (sid : Nat) : HTTP2Stream :=
  ⟨sid, "idle", [], [], [], []⟩

/-- `HTTP2Stream.process_headers`: store the decoded headers and move to
`open`. -/
def HTTP2Stream.process_headers (s : HTTP2Stream)
    (hs : List (String × String)) : HTTP2Stream :=
  { s with headers := hs, state := "open" }

/-- `HTTP2Stream.process_complete_request`: record the canned 200 response
and move to `half_closed_remote`. -/
def HTTP2Stream.process_complete_request (s : HTTP2Stream) : HTTP2Stream :=
  { s with
    response_headers :=
      [(":status", "200"), ("content-type", "text/plain"),
       ("content-length", "2")]
    response_data := [79, 75]
    state := "half_closed_remote" }

/-- State of `HTTP2Connection`: the stream map, the settings table and the
frames written so far. -/
structure HTTP2Connection where
  streams : List (Nat × HTTP2Stream)
  settings : List (String × Nat)
  sent : List H2Frame
deriving DecidableEq

/-- `HTTP2Connection.__init__`: protocol-default settings, no streams. -/
def HTTP2Connection.init : HTTP2Connection :=
  { streams := []
    settings :=
      [("header_table_size", 4096), ("enable_push", 1),
       ("max_concurrent_streams", 100), ("initial_window_size", 65535),
       ("max_frame_size", 16384), ("max_header_list_size", 65536)]
    sent := [] }

/-- `HTTP2Connection._send_rst_stream`: a RST_STREAM frame whose payload is
the 4-byte big-endian error code. -/
def mkRstStream (sid error_code : Nat) : H2Frame :=
  ⟨0x3, 0, sid, natToBytesBE error_code 4⟩

/-- `HTTP2Connection._send_goaway`: payload is the highest stream id seen
followed by the error code, both 4-byte big-endian. -/
def HTTP2Connection.send_goaway (c : HTTP2Connection) (error_code : Nat) :
    HTTP2Connection :=
  let last_stream_id := (c.streams.map Prod.fst).foldl max 0
  { c with sent := c.sent ++
      [⟨0x7, 0, 0, natToBytesBE last_stream_id 4 ++ natToBytesBE error_code 4⟩] }

/-- `HTTP2Connection._process_data`: an unknown stream id triggers a
RST_STREAM with PROTOCOL_ERROR (0x1) and changes nothing else; on an
existing stream the payload is appended to the stream's body, and if
END_STREAM (flag 0x1) is set the stream processes the complete request. -/
def HTTP2Connection.process_data (c : HTTP2Connection)
    (sid flags : Nat) (data : List Nat) : HTTP2Connection :=
  match dget c.streams sid with
  | none => { c with sent := c.sent ++ [mkRstStream sid 0x1] }
  | some s =>
      let s1 := { s with data := s.data ++ data }
      let s2 := if flags &&& 0x1 ≠ 0 then s1.process_complete_request else s1
      { c with streams := dset c.streams sid s2 }

/-- `HTTP2Connection._process_headers`: decode the header block, create the
stream if absent, and run the stream's `process_headers` (flags are
ignored by the Python code). -/
def HTTP2Connection.process_headers (decode : List Nat → List (String × String))
    (c : HTTP2Connection) (sid _flags : Nat) (data : List Nat) :
    HTTP2Connection :=
  let hs := decode data
  let streams1 :=
    if (dget c.streams sid).isNone then dset c.streams sid (HTTP2Stream.init sid)
    else c.streams
  match dget streams1 sid with
  | some s => { c with streams := dset streams1 sid (s.process_headers hs) }
  | none => { c with streams := streams1 }

/-- Validation of one settings pair, mirroring the `if/elif` chain in
`_process_settings`; `some msg` models the raised `ValueError`. -/
def validateSetting (identifier value : Nat) : Option String :=
  if identifier = 0x2 then
    if value ≠ 0 ∧ value ≠ 1 then some "Invalid ENABLE_PUSH value" else none
  else if identifier = 0x4 then
    if value > 2147483647 then some "Invalid INITIAL_WINDOW_SIZE value" else none
  else if identifier = 0x5 then
    if value < 16384 ∨ value > 16777215 then some "Invalid MAX_FRAME_SIZE value"
    else none
  else none

/-- `HTTP2Connection._setting_name`. -/
def settingName (identifier : Nat) : String :=
  if identifier = 0x1 then "header_table_size"
  else if identifier = 0x2 then "enable_push"
  else if identifier = 0x3 then "max_concurrent_streams"
  else if identifier = 0x4 then "initial_window_size"
  else if identifier = 0x5 then "max_frame_size"
  else if identifier = 0x6 then "max_header_list_size"
  else "unknown_setting_" ++ toString identifier

/-- The settings loop of `_process_settings`: consume the payload six bytes
at a time, validating and storing each `(id, value)` pair; an invalid value
stops the loop, keeping the pairs already applied (the Python exception
propagates after the in-place dict updates). -/
def processSettingsPairs (settings : List (String × Nat)) :
    List Nat → List (String × Nat) × Option String
  | b0 :: b1 :: b2 :: b3 :: b4 :: b5 :: rest =>
      let identifier := b0 * 256 + b1
      let value := ((b2 * 256 + b3) * 256 + b4) * 256 + b5
      match validateSetting identifier value with
      | some e => (settings, some e)
      | none => processSettingsPairs (dset settings (settingName identifier) value) rest
  | _ => (settings, none)

/-- `HTTP2Connection._process_settings`: an ACK with a non-empty payload is
an error; an ACK with an empty payload is silently accepted; otherwise the
payload length must be a multiple of 6, every pair is validated and
stored, and exactly one empty-payload SETTINGS ACK frame is sent on
success.  The `Option String` is the raised `ValueError` if any. -/
def HTTP2Connection.process_settings (c : HTTP2Connection)
    (flags : Nat) (data : List Nat) : HTTP2Connection × Option String :=
  if flags &&& 0x1 ≠ 0 then
    if data ≠ [] then (c, some "SETTINGS ACK frame with non-empty payload")
    else (c, none)
  else if data.length % 6 ≠ 0 then
    (c, some "SETTINGS frame length not a multiple of 6")
  else
    match processSettingsPairs c.settings data with
    | (s', some e) => ({ c with settings := s' }, some e)
    | (s', none) =>
        ({ c with settings := s', sent := c.sent ++ [⟨0x4, 0x1, 0, []⟩] }, none)

/-- `HTTP2Connection._process_frame` dispatch: HEADERS, SETTINGS, DATA,
WINDOW_UPDATE (no-op), GOAWAY (stop), everything else ignored.  A
`ValueError` from SETTINGS processing degrades to a GOAWAY with
PROTOCOL_ERROR and stops the loop.  The returned `Bool` is the Python
return value (continue processing?). -/
def HTTP2Connection.process_frame (decode : List Nat → List (String × String))
    (c : HTTP2Connection) (f : H2Frame) : HTTP2Connection × Bool :=
  if f.typ = 0x1 then (c.process_headers decode f.sid f.flags f.payload, true)
  else if f.typ = 0x4 then
    match c.process_settings f.flags f.payload with
    | (c', none) => (c', true)
    | (c', some _) => (c'.send_goaway 0x1, false)
  else if f.typ = 0x0 then (c.process_data f.sid f.flags f.payload, true)
  else if f.typ = 0x8 then (c, true)
  else if f.typ = 0x7 then (c, false)
  else (c, true)

/-- The connection loop of `handle_connection`, restricted to an already
read list of frames: process until a frame asks to stop. -/
def HTTP2Connection.run (decode : List Nat → List (String × String))
    (c : HTTP2Connection) : List H2Frame → HTTP2Connection
  | [] => c
  | f :: rest =>
      match c.process_frame decode f with
      | (c', true) => c'.run decode rest
      | (c', false) => c'

/-- The state of stream `sid`, if it exists. -/
def streamState (c : HTTP2Connection) (sid : Nat) : Option String :=
  (dget c.streams sid).map HTTP2Stream.state

/-- How often stream `sid` newly enters the `half_closed_remote` state
while the connection loop processes the given frames. -/
def countHCREntries (decode : List Nat → List (String × String))
    (c : HTTP2Connection) (sid : Nat) : List H2Frame → Nat
  | [] => 0
  | f :: rest =>
      match c.process_frame decode f with
      | (c', cont) =>
          (if streamState c sid ≠ some "half_closed_remote" ∧
              streamState c' sid = some "half_closed_remote" then 1 else 0) +
          (if cont then countHCREntries decode c' sid rest else 0)

/-! ## src/src/core/request_handler.py and src/src/core/server_core.py —
keep-alive decisions (claim C1) -/

/-- `WSGIHandler._should_keep_alive`: the response's Connection header
decision — `close` forces close, HTTP/1.0 defaults to close unless the
client asked for keep-alive, HTTP/1.1 defaults to keep-alive.  `version`
is `environ['SERVER_PROTOCOL']` and `http_connection` the raw
`HTTP_CONNECTION` value (empty when the header is absent). -/
def shouldKeepAlive (version http_connection : String) : Bool :=
  let connection := strLower http_connection
  if connection = "close" then false
  else if version = "HTTP/1.0" then connection = "keep-alive"
  else true

/-- `WSGIServer.handle_client` keep-alive loop condition: after a request,
the per-connection loop continues only when
`handler.headers.get('Connection', '').lower()` equals `'keep-alive'`;
otherwise it breaks and the connection is closed. -/
def connectionLoopContinues (headers : List (String × String)) : Bool :=
  strLower ((dget headers "Connection").getD "") = "keep-alive"

/-! ## src/src/core/request_handler.py — error responses (claim C6) -/

/-- `WSGIHandler._build_error_response`: status text from the small code
table, fixed headers, and the caller-supplied message as the entire body
(with its length as Content-Length). -/
def buildErrorResponse (code : Nat) (message : String) : List Char :=
  let status := if code = 400 then "Bad Request"
    else if code = 500 then "Internal Server Error"
    else "Internal Server Error"
  ("HTTP/1.1 " ++ toString code ++ " " ++ status ++ "\r\n" ++
   "Content-Type: text/plain\r\n" ++
   "Content-Length: " ++ toString message.length ++ "\r\n" ++
   "Connection: close\r\n" ++
   "\r\n" ++ message).toList

/-- The `except Exception as e` arm of `WSGIHandler._call_wsgi_app`: when
the application callable raises, the handler returns
`_build_error_response(500, str(e))`, i.e. the exception text `e`
becomes the response body. -/
def callWsgiAppOnException (e : String) : List Char :=
  buildErrorResponse 500 e

/-- The body of a serialized response: everything after the first
`"\r\n\r\n"`. -/
def responseBodyOf (resp : List Char) : List Char :=
  match splitFirst ['\r', '\n', '\r', '\n'] resp with
  | some (_, post) => post
  | none => []

/-! ## src/src/core/request_handler.py + src/src/features/security.py —
response building and HEAD stripping (claim C7) -/

/-- The CRLF pair. -/
def crlfChars : List Char := ['\r', '\n']

/-- The header-terminator sequence `"\r\n\r\n"`. -/
def crlf2Chars : List Char := ['\r', '\n', '\r', '\n']

/-- `security.CORSConfig` (fields used by header preparation). -/
structure CORSConfig where
  allowed_origins : List String
  allowed_methods : List String
  allowed_headers : List String
  allow_credentials : Bool
  max_age : Nat

/-- The post-init defaults of `CORSConfig`. -/
def CORSConfig.default : CORSConfig :=
  ⟨["*"], ["GET", "POST", "OPTIONS"], ["Content-Type"], false, 86400⟩

/-- `security.apply_cors_headers` at the `_prepare_headers` call site,
where `environ` is `None`: `origin_value` stays `'*'`, so exactly the four
basic CORS headers are appended (no credentials header with a wildcard
origin, no Vary header). -/
def applyCorsHeaders (headers : List (String × String)) (cfg : CORSConfig) :
    List (String × String) :=
  headers ++
    [("Access-Control-Allow-Origin", "*"),
     ("Access-Control-Allow-Methods", String.intercalate "," cfg.allowed_methods),
     ("Access-Control-Allow-Headers", String.intercalate "," cfg.allowed_headers),
     ("Access-Control-Max-Age", toString cfg.max_age)]

/-- Python `str.strip()` on a `String`. -/
def pyStripStr (s : String) : String := String.mk (pyStrip s.toList)

/-- `WSGIHandler._prepare_headers`: strip names and values, supply a
default Content-Type and a Connection header when missing, then apply the
CORS headers.  `keep_alive` is `_should_keep_alive(environ)`. -/
def prepareHeaders (cfg : CORSConfig) (headers : List (String × String))
    (keep_alive : Bool) : List (String × String) :=
  let stripped := headers.map (fun h => (pyStripStr h.1, pyStripStr h.2))
  let has_content_type := stripped.any (fun h => strLower h.1 = "content-type")
  let has_connection := stripped.any (fun h => strLower h.1 = "connection")
  let withCt := if has_content_type then stripped
    else stripped ++ [("Content-Type", "text/plain")]
  let withConn := if has_connection then withCt
    else withCt ++
      [("Connection", if keep_alive then "keep-alive" else "close")]
  applyCorsHeaders withConn cfg

/-- One serialized header line `f'{name}: {value}\r\n'`. -/
def headerLineChars (h : String × String) : List Char :=
  h.1.toList ++ (": ").toList ++ h.2.toList ++ crlfChars

/-- Response assembly in `WSGIHandler._call_wsgi_app`: status line, the
prepared header lines, a blank line, then the non-empty body chunks in
iteration order. -/
def buildWsgiResponse (status : String) (hs : List (String × String))
    (body : List (List Char)) : List Char :=
  ("HTTP/1.1 " ++ status).toList ++ crlfChars ++
  (hs.map headerLineChars).flatten ++ crlfChars ++
  (body.filter (fun d => d ≠ [])).flatten

/-- `WSGIHandler._strip_response_body`: split at the first header
terminator and keep only the part before it, re-appending the
terminator. -/
def stripResponseBody (resp : List Char) : List Char :=
  match splitFirst crlf2Chars resp with
  | some (pre, _) => pre ++ crlf2Chars
  | none => resp ++ crlf2Chars

/-- CRLF-joined segments (no trailing separator); proof-side normal form
for the header section of a response. -/
def interLines : List (List Char) → List Char
  | [] => []
  | [l] => l
  | l :: rest => l ++ crlfChars ++ interLines rest

/-! ## src/src/httptools_server.py — streaming WSGI bridge (claim C5) -/

/-- An item of the executor→event-loop queue in `_process_wsgi_request`:
a body chunk, the `None` completion marker, or a pushed exception. -/
inductive QItem
  | chunk (bs : List Char)
  | done
  | exc
deriving DecidableEq

/-- The application iterable as the bridge sees it: the chunks it yields
before iteration ends, whether iteration ends by raising instead of
exhaustion, and whether the iterable has a `close` attribute. -/
structure AppResult where
  chunks : List (List Char)
  raises : Bool
  hasClose : Bool

/-- `_iter_app_and_push` (run in the thread executor): iterate the WSGI
result pushing each chunk, then call `close()` and push the `None` marker —
but when iteration raises, control jumps to the `except` arm, which pushes
the exception marker only: the `close()` call is skipped.  Returns the
queue contents and the number of `close()` invocations. -/
def iterAppAndPush (r : AppResult) : List QItem × Nat :=
  if r.raises then
    (r.chunks.map QItem.chunk ++ [QItem.exc], 0)
  else
    (r.chunks.map QItem.chunk ++ [QItem.done], if r.hasClose then 1 else 0)

/-- One hexadecimal digit, uppercase (Python `f'{n:X}'`). -/
def hexDigitChar (n : Nat) : Char :=
  if n < 10 then Char.ofNat (48 + n) else Char.ofNat (55 + n)

/-- Python `f'{n:X}'` digits, most significant first; the fuel argument
only bounds the recursion (each step divides by 16, so `n + 1` steps
always suffice) and keeps the definition structurally recursive. -/
def hexUpperAux : Nat → Nat → List Char
  | 0, _ => []
  | fuel + 1, n =>
      if n < 16 then [hexDigitChar n]
      else hexUpperAux fuel (n / 16) ++ [hexDigitChar (n % 16)]

/-- Python `f'{n:X}'`: uppercase hexadecimal representation. -/
def hexUpper (n : Nat) : List Char := hexUpperAux (n + 1) n

/-- One chunked-transfer frame `f'{len(p):X}\r\n' + p + b'\r\n'`. -/
def chunkFrame (p : List Char) : List Char :=
  hexUpper p.length ++ crlfChars ++ p ++ crlfChars

/-- The terminating zero-length chunk `b'0\r\n\r\n'`. -/
def zeroChunk : List Char := '0' :: crlf2Chars

/-- The queue-consuming write loops of `_process_wsgi_request`: each
non-empty chunk is written as a chunked-transfer frame in queue order;
empty chunks are skipped; the `None` marker and (in the streaming loop)
the exception marker both fall through to the final `b'0\r\n\r\n'` write.
The initial collection loop and the streaming loop frame chunks
identically, so they are modelled as one pass. -/
def streamBody : List QItem → List Char
  | [] => zeroChunk
  | QItem.chunk p :: rest => (if p = [] then [] else chunkFrame p) ++ streamBody rest
  | QItem.done :: _ => zeroChunk
  | QItem.exc :: _ => zeroChunk

/-- The wire output of `_process_wsgi_request` for a response with no
established content length: fixed `200 OK` status line, the request-id
header, `Transfer-Encoding: chunked`, blank line, then the chunked body. -/
def processWsgiStream (request_id : String) (items : List QItem) : List Char :=
  ("HTTP/1.1 200 OK\r\nX-Request-ID: " ++ request_id ++
   "\r\nTransfer-Encoding: chunked\r\n\r\n").toList ++ streamBody items

/-! ## src/src/features/pipelining.py — PipelineHandler (claim C8) -/

/-- Header parsing inside `_read_pipelined_requests`: split the header
block on CRLF, skip the request line, and for every line containing a
colon store `name.strip().lower() → value.strip()` (bytes modelled as
character lists). -/
def parsePipelineHeaders (headers_part : List Char) :
    List (List Char × List Char) :=
  ((splitLines headers_part).drop 1).foldl (fun m line =>
    match splitFirst [':'] line with
    | none => m
    | some (n, v) => dset m (charsLower (pyStrip n)) (pyStrip v)) []

/-- Content-Length extraction in `_read_pipelined_requests`: absent or
unparsable values count as no body. -/
def pipelineContentLength (headers : List (List Char × List Char)) : Int :=
  match dget headers ("content-length".toList) with
  | none => 0
  | some v =>
      match pyInt? v with
      | some n => n
      | none => 0

/-- The inner body-completion loop: read further chunks until `rest` holds
at least `need` bytes; an exhausted reader or an empty read ends the loop
(Python `if not more_data: break`). -/
def readUntil (reads : List (List Char)) (rest : List Char) (need : Int) :
    List Char × List (List Char) :=
  if (rest.length : Int) < need then
    match reads with
    | [] => (rest, [])
    | chunk :: more =>
        if chunk = [] then (rest, more)
        else readUntil more (rest ++ chunk) need
  else (rest, reads)

/-- The main collection loop of `_read_pipelined_requests`: while fewer
than `max_pipeline_requests` requests are collected and the buffer holds a
header terminator, split off one request (completing its body when a
positive Content-Length demands it) and continue on the remaining
buffer.  `budget` is the remaining request capacity (20 at entry). -/
def readLoop : Nat → List Char → List (List Char) → List (List Char)
  | 0, _, _ => []
  | budget + 1, buffer, reads =>
      match splitFirst crlf2Chars buffer with
      | none => []
      | some (headers_part, rest) =>
          let headers := parsePipelineHeaders headers_part
          let content_length := pipelineContentLength headers
          if content_length > 0 then
            let r2 := readUntil reads rest content_length
            if (r2.1.length : Int) ≥ content_length then
              (headers_part ++ crlf2Chars ++ r2.1.take content_length.toNat) ::
                readLoop budget (r2.1.drop content_length.toNat) r2.2
            else []
          else
            (headers_part ++ crlf2Chars) :: readLoop budget rest reads

/-- `PipelineHandler._read_pipelined_requests` over a modelled reader (the
list of byte chunks successive `reader.read` calls return): an empty first
read yields no requests, otherwise the collection loop runs with a
capacity of 20. -/
def readPipelinedRequests (reads : List (List Char)) : List (List Char) :=
  match reads with
  | [] => []
  | data :: more => if data = [] then [] else readLoop 20 data more

/-- One iteration of `PipelineHandler.handle_pipeline`: read the pipelined
requests of a burst, process each in arrival order, and write all
responses in that same order on the still-open connection. -/
def handlePipelineBurst (process : List Char → List Char)
    (reads : List (List Char)) : List Char :=
  ((readPipelinedRequests reads).map process).flatten

/-! ## Proof-side normal forms used in theorem statements -/

/-- The `(id, value)` pairs encoded in a SETTINGS payload, six bytes per
pair (big-endian 2-byte id, 4-byte value). -/
def settingsPairs : List Nat → List (Nat × Nat)
  | b0 :: b1 :: b2 :: b3 :: b4 :: b5 :: rest =>
      (b0 * 256 + b1, ((b2 * 256 + b3) * 256 + b4) * 256 + b5) :: settingsPairs rest
  | _ => []

/-- Applying a list of settings pairs to the settings table in order. -/
def applySettingsPairs (settings : List (String × Nat))
    (ps : List (Nat × Nat)) : List (String × Nat) :=
  ps.foldl (fun s p => dset s (settingName p.1) p.2) settings

/-- The empty-payload SETTINGS ACK frame. -/
def settingsAckFrame : H2Frame := ⟨0x4, 0x1, 0, []⟩

/-- The header segment `f'{name}: {value}'` of one response header line,
without its trailing CRLF. -/
def headerSeg (h : String × String) : List Char :=
  h.1.toList ++ (": ").toList ++ h.2.toList

/-- One pipelined request, split into its header block (request line and
header lines, no terminator) and its body. -/
structure PipeReq where
  hdr : List Char
  body : List Char

/-- The bytes of a pipelined request on the wire. -/
def PipeReq.bytes (r : PipeReq) : List Char := r.hdr ++ crlf2Chars ++ r.body

/-- A read burst consisting of the given requests back to back. -/
def burstBytes (rs : List PipeReq) : List Char :=
  (rs.map PipeReq.bytes).flatten

/-- A header block is clean when its first header terminator is the one
appended after it (no `"\r\n\r\n"` occurs inside it). -/
abbrev CleanHeaderBlock (h : List Char) : Prop :=
  splitFirst crlf2Chars (h ++ crlf2Chars) = some (h, [])

/-- Well-formedness of a pipelined request: a clean header block whose
declared Content-Length matches the body length. -/
abbrev WellFormedReq (r : PipeReq) : Prop :=
  CleanHeaderBlock r.hdr ∧
  pipelineContentLength (parsePipelineHeaders r.hdr) = (r.body.length : Int)

/-! ## Helper lemmas -/

set_option maxRecDepth 8000

theorem toNat_ofNat_lt (n : Nat) (h : n < 128) : (Char.ofNat n).toNat = n := by
  have hv : n < 55296 ∨ 57343 < n ∧ n < 1114112 := Or.inl (by omega)
  simp [Char.ofNat, Char.ofNatAux, hv, Char.toNat, UInt32.toNat]

theorem ofNat_eq_iff (n : Nat) (h : n < 128) (c : Char) :
    Char.ofNat n = c ↔ n = c.toNat := by
  constructor
  · intro he
    have h2 : (Char.ofNat n).toNat = c.toNat := by rw [he]
    rw [toNat_ofNat_lt n h] at h2
    exact h2
  · intro he
    subst he
    exact Char.ofNat_toNat c

theorem dget_dset_self {κ α : Type} [DecidableEq κ] (m : List (κ × α)) (k : κ) (v : α) :
    dget (dset m k v) k = some v := by
  induction m with
  | nil => simp [dset, dget]
  | cons p rest ih =>
      obtain ⟨k', v'⟩ := p
      by_cases h : k' = k
      · simp [dset, dget, h]
      · simp [dset, dget, h, ih]

theorem dget_dset_ne {κ α : Type} [DecidableEq κ] (m : List (κ × α)) (k k' : κ) (v : α)
    (h : k' ≠ k) : dget (dset m k v) k' = dget m k' := by
  have h' : ¬ k = k' := fun he => h he.symm
  induction m with
  | nil => simp [dset, dget, h']
  | cons p rest ih =>
      obtain ⟨k0, v0⟩ := p
      by_cases h0 : k0 = k
      · subst h0
        simp [dset, dget, h']
      · simp only [dset, if_neg h0, dget, ih]

theorem mem_dset {κ α : Type} [DecidableEq κ] (m : List (κ × α)) (k : κ) (v : α)
    (p : κ × α) (hp : p ∈ dset m k v) : p = (k, v) ∨ p ∈ m := by
  induction m with
  | nil => simpa [dset] using hp
  | cons q rest ih =>
      obtain ⟨k0, v0⟩ := q
      by_cases h0 : k0 = k
      · simp only [dset, if_pos h0, List.mem_cons] at hp
        rcases hp with h1 | h1
        · exact Or.inl h1
        · exact Or.inr (List.mem_cons_of_mem _ h1)
      · simp only [dset, if_neg h0, List.mem_cons] at hp
        rcases hp with h1 | h1
        · exact Or.inr (by simp [h1])
        · rcases ih h1 with h2 | h2
          · exact Or.inl h2
          · exact Or.inr (List.mem_cons_of_mem _ h2)

theorem dget_mem {κ α : Type} [DecidableEq κ] (m : List (κ × α)) (k : κ) (v : α)
    (h : dget m k = some v) : (k, v) ∈ m := by
  induction m with
  | nil => simp [dget] at h
  | cons q rest ih =>
      obtain ⟨k0, v0⟩ := q
      by_cases h0 : k0 = k
      · subst h0
        simp [dget] at h
        simp [h]
      · simp only [dget, if_neg h0] at h
        exact List.mem_cons_of_mem _ (ih h)

theorem dget_eq_none_iff {κ α : Type} [DecidableEq κ] (m : List (κ × α)) (k : κ) :
    dget m k = none ↔ ∀ p ∈ m, p.1 ≠ k := by
  induction m with
  | nil => simp [dget]
  | cons q rest ih =>
      obtain ⟨k0, v0⟩ := q
      by_cases h0 : k0 = k
      · simp [dget, h0]
      · simp [dget, h0, ih]

theorem splitFirst_cons_step {α : Type} [DecidableEq α] (sep : List α) (c : α)
    (xs : List α) (h : ¬ sep.isPrefixOf (c :: xs)) :
    splitFirst sep (c :: xs) = (splitFirst sep xs).map (fun p => (c :: p.1, p.2)) := by
  simp [splitFirst, h]

theorem not_prefix_of_head_ne {α : Type} [DecidableEq α] (s : α) (ss : List α) (c : α)
    (xs : List α) (h : c ≠ s) : ¬ (s :: ss).isPrefixOf (c :: xs) := by
  intro hcon
  have h1 := List.prefix_iff_eq_take.mp (List.isPrefixOf_iff_prefix.mp hcon)
  rw [List.length_cons, List.take_succ_cons] at h1
  exact h (by injection h1 with h2 _; exact h2.symm)

theorem splitFirst_self_append {α : Type} [DecidableEq α] (sep X : List α) :
    splitFirst sep (sep ++ X) = some ([], X) := by
  have hpre : sep.isPrefixOf (sep ++ X) :=
    List.isPrefixOf_iff_prefix.mpr (List.prefix_append _ _)
  have hdrop : (sep ++ X).drop sep.length = X := List.drop_left _ _
  cases hsx : sep ++ X with
  | nil =>
      have hs : sep = [] := by cases sep <;> simp_all
      have hx : X = [] := by cases sep <;> simp_all
      subst hs; subst hx
      simp [splitFirst]
  | cons c rest =>
      rw [← hsx]
      cases sep with
      | nil => simp [splitFirst] at hsx ⊢; cases X with
               | nil => simp [splitFirst]
               | cons x xs => simp [splitFirst, List.isPrefixOf]
      | cons s ss =>
          have : (s :: ss) ++ X = s :: (ss ++ X) := rfl
          rw [this]
          rw [splitFirst]
          simp only [← this, hpre, if_pos]
          rw [hdrop]

theorem splitFirst_sound {α : Type} [DecidableEq α] (sep : List α) (xs : List α)
    (p : List α × List α) (h : splitFirst sep xs = some p) :
    xs = p.1 ++ sep ++ p.2 := by
  induction xs generalizing p with
  | nil =>
      rw [splitFirst] at h
      by_cases hp : sep.isPrefixOf ([] : List α)
      · have hs : sep = [] := by
          cases sep with
          | nil => rfl
          | cons s ss => simp [List.isPrefixOf] at hp
        rw [if_pos hp] at h
        injection h with h1
        subst h1
        simp [hs]
      · rw [if_neg hp] at h
        exact absurd h (by simp)
  | cons c rest ih =>
      rw [splitFirst] at h
      by_cases hp : sep.isPrefixOf (c :: rest)
      · rw [if_pos hp] at h
        injection h with h1
        subst h1
        have h2 := List.prefix_iff_eq_take.mp (List.isPrefixOf_iff_prefix.mp hp)
        conv_lhs => rw [← List.take_append_drop sep.length (c :: rest)]
        simp [← h2]
      · rw [if_neg hp] at h
        cases hq : splitFirst sep rest with
        | none => rw [hq] at h; simp at h
        | some q =>
            rw [hq] at h
            injection h with h1
            subst h1
            have := ih q hq
            simp [this]

theorem splitFirst_extend {α : Type} [DecidableEq α] (sep a X : List α)
    (h : splitFirst sep (a ++ sep) = some (a, [])) :
    splitFirst sep (a ++ sep ++ X) = some (a, X) := by
  induction a with
  | nil =>
      simp only [List.nil_append]
      exact splitFirst_self_append sep X
  | cons c a' ih =>
      have hstep : (c :: a') ++ sep = c :: (a' ++ sep) := rfl
      rw [hstep, splitFirst] at h
      by_cases hp : sep.isPrefixOf (c :: (a' ++ sep))
      · rw [if_pos hp] at h
        injection h with h1
        exact absurd (congrArg Prod.fst h1) (by simp)
      · rw [if_neg hp] at h
        have h2 : splitFirst sep (a' ++ sep) = some (a', []) := by
          cases hq : splitFirst sep (a' ++ sep) with
          | none => rw [hq] at h; simp at h
          | some q =>
              rw [hq] at h
              injection h with h1
              obtain ⟨q1, q2⟩ := q
              simp only [Prod.mk.injEq] at h1
              obtain ⟨ha, hb⟩ := h1
              have hq1 : q1 = a' := by injection ha
              rw [hq1, hb]
        have hp2 : ¬ sep.isPrefixOf (c :: (a' ++ sep ++ X)) := by
          intro hcon
          apply hp
          apply List.isPrefixOf_iff_prefix.mpr
          have h3 := List.prefix_iff_eq_take.mp (List.isPrefixOf_iff_prefix.mp hcon)
          apply List.prefix_iff_eq_take.mpr
          have hlen : sep.length ≤ (c :: (a' ++ sep)).length := by
            simp only [List.length_cons, List.length_append]
            omega
          have hassoc : c :: (a' ++ sep ++ X) = (c :: (a' ++ sep)) ++ X := by
            simp
          rw [hassoc, List.take_append_of_le_length hlen] at h3
          exact h3
        have hstep2 : (c :: a') ++ sep ++ X = c :: (a' ++ sep ++ X) := rfl
        rw [hstep2, splitFirst, if_neg hp2]
        have := ih h2
        rw [this]
        rfl

theorem crlf2Chars_eq : crlf2Chars = '\r' :: ['\n', '\r', '\n'] := rfl

theorem splitFirst_crlf2_skip (l xs : List Char) (hl : '\r' ∉ l) :
    splitFirst crlf2Chars (l ++ xs) =
      (splitFirst crlf2Chars xs).map (fun p => (l ++ p.1, p.2)) := by
  induction l with
  | nil => cases h : splitFirst crlf2Chars xs <;> simp [h]
  | cons c l' ih =>
      have hc : c ≠ '\r' := fun he => hl (by simp [he])
      have hnp : ¬ crlf2Chars.isPrefixOf (c :: (l' ++ xs)) := by
        rw [crlf2Chars_eq]
        exact not_prefix_of_head_ne _ _ _ _ hc
      rw [List.cons_append, splitFirst_cons_step _ _ _ hnp,
        ih (fun hm => hl (List.mem_cons_of_mem _ hm))]
      cases splitFirst crlf2Chars xs <;> simp

theorem splitFirst_crlf2_sepstep (c : Char) (ys : List Char) (hc : c ≠ '\r') :
    splitFirst crlf2Chars ('\r' :: '\n' :: c :: ys) =
      (splitFirst crlf2Chars (c :: ys)).map
        (fun p => ('\r' :: '\n' :: p.1, p.2)) := by
  have h1 : ¬ crlf2Chars.isPrefixOf ('\r' :: '\n' :: c :: ys) := by
    intro hcon
    have h2 := List.prefix_iff_eq_take.mp (List.isPrefixOf_iff_prefix.mp hcon)
    rw [crlf2Chars_eq] at h2
    simp only [List.length_cons, List.length_nil, List.take_succ_cons] at h2
    injection h2 with ha hb
    injection hb with hb hcq
    injection hcq with hcq _
    exact hc hcq.symm
  rw [splitFirst, if_neg h1]
  have h2 : ¬ crlf2Chars.isPrefixOf ('\n' :: c :: ys) := by
    rw [crlf2Chars_eq]
    exact not_prefix_of_head_ne _ _ _ _ (by decide)
  rw [splitFirst_cons_step _ _ _ h2]
  cases splitFirst crlf2Chars (c :: ys) <;> simp

theorem interLines_cons (l : List Char) (rest : List (List Char)) :
    interLines (l :: rest) =
      l ++ (if rest.isEmpty then [] else crlfChars ++ interLines rest) := by
  cases rest with
  | nil => simp [interLines]
  | cons r rs => simp [interLines]

theorem splitFirst_interLines (segs : List (List Char)) (body : List Char)
    (h1 : ∀ l ∈ segs, '\r' ∉ l) (h2 : ∀ l ∈ segs.tail, l ≠ []) (hne : segs ≠ []) :
    splitFirst crlf2Chars (interLines segs ++ crlf2Chars ++ body) =
      some (interLines segs, body) := by
  induction segs with
  | nil => exact absurd rfl hne
  | cons S rest ih =>
      cases rest with
      | nil =>
          simp only [interLines, List.append_assoc]
          rw [splitFirst_crlf2_skip S (crlf2Chars ++ body) (h1 S (by simp)),
            splitFirst_self_append]
          simp
      | cons L rest' =>
          obtain ⟨c, L', hL⟩ : ∃ c L', L = c :: L' := by
            cases hLc : L with
            | nil => exact absurd hLc (h2 L (by simp))
            | cons x xs => exact ⟨x, xs, rfl⟩
          have hcr : c ≠ '\r' := by
            intro he
            exact h1 L (by simp) (by simp [hL, he])
          have hInter : interLines (L :: rest') =
              c :: (L' ++ (if rest'.isEmpty then [] else crlfChars ++ interLines rest')) := by
            rw [interLines_cons, hL]
            simp
          have hih := ih (fun l hl => h1 l (List.mem_cons_of_mem _ hl))
            (fun l hl => h2 l (by simp at hl ⊢; exact Or.inr hl)) (by simp)
          show splitFirst crlf2Chars
              ((S ++ crlfChars ++ interLines (L :: rest')) ++ crlf2Chars ++ body) =
            some (S ++ crlfChars ++ interLines (L :: rest'), body)
          have hshape : (S ++ crlfChars ++ interLines (L :: rest')) ++ crlf2Chars ++ body =
              S ++ ('\r' :: '\n' :: (interLines (L :: rest') ++ crlf2Chars ++ body)) := by
            simp [crlfChars, List.append_assoc]
          rw [hshape]
          rw [splitFirst_crlf2_skip S _ (h1 S (by simp))]
          rw [show interLines (L :: rest') ++ crlf2Chars ++ body =
                c :: (L' ++ (if rest'.isEmpty then [] else crlfChars ++ interLines rest') ++
                  crlf2Chars ++ body) by rw [hInter]; simp [List.append_assoc]]
          rw [splitFirst_crlf2_sepstep c _ hcr]
          rw [show c :: (L' ++ (if rest'.isEmpty then [] else crlfChars ++ interLines rest') ++
                crlf2Chars ++ body) =
              interLines (L :: rest') ++ crlf2Chars ++ body by rw [hInter]; simp [List.append_assoc]]
          rw [hih]
          simp [crlfChars, List.append_assoc]

theorem appendLines_eq_interLines (A : List Char) (ls : List (List Char)) :
    A ++ crlfChars ++ (ls.map (fun l => l ++ crlfChars)).flatten =
      interLines (A :: ls) ++ crlfChars := by
  induction ls generalizing A with
  | nil => simp [interLines]
  | cons x rest ih =>
      have hx := ih x
      simp only [List.map_cons, List.flatten_cons]
      calc A ++ crlfChars ++ ((x ++ crlfChars) ++ (rest.map (fun l => l ++ crlfChars)).flatten)
          = A ++ crlfChars ++ (x ++ crlfChars ++ (rest.map (fun l => l ++ crlfChars)).flatten) := by
            simp [List.append_assoc]
        _ = A ++ crlfChars ++ (interLines (x :: rest) ++ crlfChars) := by rw [hx]
        _ = interLines (A :: x :: rest) ++ crlfChars := by
            simp [interLines, List.append_assoc]

theorem headerLineChars_eq (h : String × String) :
    headerLineChars h = headerSeg h ++ crlfChars := by
  simp [headerLineChars, headerSeg, List.append_assoc]

theorem build_as_interLines (status : String) (hs : List (String × String))
    (body : List (List Char)) :
    buildWsgiResponse status hs body =
      interLines (("HTTP/1.1 " ++ status).toList :: hs.map headerSeg) ++
        crlf2Chars ++ (body.filter (fun d => d ≠ [])).flatten := by
  have hmap : hs.map headerLineChars = (hs.map headerSeg).map (fun l => l ++ crlfChars) := by
    rw [List.map_map]
    exact List.map_congr_left (fun h _ => headerLineChars_eq h)
  rw [buildWsgiResponse, hmap]
  rw [show ("HTTP/1.1 " ++ status).toList ++ crlfChars ++
        ((hs.map headerSeg).map (fun l => l ++ crlfChars)).flatten ++ crlfChars ++
        (body.filter (fun d => d ≠ [])).flatten =
      (("HTTP/1.1 " ++ status).toList ++ crlfChars ++
        ((hs.map headerSeg).map (fun l => l ++ crlfChars)).flatten) ++ crlfChars ++
        (body.filter (fun d => d ≠ [])).flatten by simp [List.append_assoc]]
  rw [appendLines_eq_interLines]
  simp [crlfChars, crlf2Chars, List.append_assoc]

/-- C7: for every HEAD request the wire response carries exactly the
header section the equivalent GET response would carry (same status line
and prepared header set) and no body bytes after the header terminator:
stripping the built response yields the same response built with an empty
body, while the GET response is that header section followed by its body
bytes.  The hypotheses rule out CR characters inside the status text and
the prepared header names and values (header injection aside, response
headers never contain raw CR). -/
theorem c7_head_same_headers_no_body
    (cfg : CORSConfig) (raw : List (String × String)) (status : String) (ka : Bool)
    (bodyHead bodyGet : List (List Char))
    (hst : '\r' ∉ status.toList)
    (hhs : ∀ h ∈ prepareHeaders cfg raw ka,
      '\r' ∉ h.1.toList ∧ '\r' ∉ h.2.toList) :
    stripResponseBody
        (buildWsgiResponse status (prepareHeaders cfg raw ka) bodyHead) =
      buildWsgiResponse status (prepareHeaders cfg raw ka) [] ∧
    buildWsgiResponse status (prepareHeaders cfg raw ka) bodyGet =
      buildWsgiResponse status (prepareHeaders cfg raw ka) [] ++
        (bodyGet.filter (fun d => d ≠ [])).flatten := by
  have hsegs1 : ∀ l ∈ (("HTTP/1.1 " ++ status).toList ::
      (prepareHeaders cfg raw ka).map headerSeg), '\r' ∉ l := by
    intro l hl
    rcases List.mem_cons.mp hl with h | h
    · subst h
      intro hmem
      rw [show ("HTTP/1.1 " ++ status).toList = "HTTP/1.1 ".toList ++ status.toList by
        simp] at hmem
      rcases List.mem_append.mp hmem with h2 | h2
      · exact absurd h2 (by decide)
      · exact hst h2
    · obtain ⟨p, hp, hpe⟩ := List.mem_map.mp h
      subst hpe
      intro hmem
      rcases List.mem_append.mp hmem with h2 | h2
      · rcases List.mem_append.mp h2 with h3 | h3
        · exact (hhs p hp).1 h3
        · exact absurd h3 (by decide)
      · exact (hhs p hp).2 h2
  have hsegs2 : ∀ l ∈ (("HTTP/1.1 " ++ status).toList ::
      (prepareHeaders cfg raw ka).map headerSeg).tail, l ≠ [] := by
    intro l hl
    obtain ⟨p, _, hpe⟩ := List.mem_map.mp hl
    subst hpe
    simp [headerSeg]
  constructor
  · rw [build_as_interLines status _ bodyHead, build_as_interLines status _ []]
    rw [stripResponseBody,
      splitFirst_interLines _ _ hsegs1 hsegs2 (by simp)]
    simp
  · rw [build_as_interLines status _ bodyGet, build_as_interLines status _ []]
    simp [List.append_assoc]

/-- Witness for C7 at a concrete handler response. -/
theorem c7_witness :
    stripResponseBody
        (buildWsgiResponse "200 OK"
          (prepareHeaders CORSConfig.default [("Content-Type", "text/html")] true)
          [['a']]) =
      buildWsgiResponse "200 OK"
        (prepareHeaders CORSConfig.default [("Content-Type", "text/html")] true) [] ∧
    buildWsgiResponse "200 OK"
        (prepareHeaders CORSConfig.default [("Content-Type", "text/html")] true)
        [['b'], ['c']] =
      buildWsgiResponse "200 OK"
        (prepareHeaders CORSConfig.default [("Content-Type", "text/html")] true) [] ++
        ([['b'], ['c']].filter (fun d => d ≠ [])).flatten :=
  c7_head_same_headers_no_body CORSConfig.default [("Content-Type", "text/html")]
    "200 OK" true [['a']] [['b'], ['c']] (by decide) (by decide)

/-- C1: the code does not honour the claimed HTTP/1.1 default keep-alive.
For an HTTP/1.1 request with no Connection header, the response-header
decision `_should_keep_alive` answers `true` (the response advertises
keep-alive), yet the `handle_client` loop condition demands a literal
client `Connection: keep-alive` token, so it evaluates false, the loop
breaks and the connection is closed.  Explicit `keep-alive` and `close`
drive the loop as the code's comparison dictates. -/
theorem c1_http11_default_keepalive_not_honored :
    shouldKeepAlive "HTTP/1.1" "" = true ∧
    connectionLoopContinues [] = false ∧
    connectionLoopContinues [("Connection", "keep-alive")] = true ∧
    connectionLoopContinues [("Connection", "close")] = false := by decide

/-- C6: when the application callable raises before headers are sent,
`_call_wsgi_app` returns `_build_error_response(500, str(e))`, so the
response body is exactly the exception's message — internal detail
reaches the client, contradicting the claim (and §7 of the spec). -/
theorem c6_error_response_body_is_exception_message :
    responseBodyOf (callWsgiAppOnException "secret-detail") =
      "secret-detail".toList := by decide

/-- C5: chunked framing is correct — every non-empty yielded chunk is
written as `<hex-length>\r\n<bytes>\r\n` in yield order and the output
ends with the zero-length chunk — and the close hook is invoked exactly
once when iteration ends by exhaustion; but when iteration ends by a
raised error the executor's `except` arm pushes the exception marker
without ever reaching the `close()` call, so the hook is not invoked,
contradicting the "whether by exhaustion or by a raised error" part. -/
theorem c5_chunked_framing_and_close_hook :
    (∀ r : AppResult, (iterAppAndPush r).2 =
      if r.raises then 0 else if r.hasClose then 1 else 0) ∧
    (∀ chunks : List (List Char),
      streamBody (chunks.map QItem.chunk ++ [QItem.done]) =
        ((chunks.filter (fun p => p ≠ [])).map chunkFrame).flatten ++ zeroChunk) ∧
    (iterAppAndPush ⟨[['a'], ['b', 'c'], ['d']], false, true⟩).2 = 1 ∧
    processWsgiStream "r1" (iterAppAndPush ⟨[['a'], ['b', 'c'], ['d']], false, true⟩).1 =
      ("HTTP/1.1 200 OK\r\nX-Request-ID: r1\r\nTransfer-Encoding: chunked\r\n\r\n" ++
       "1\r\na\r\n2\r\nbc\r\n1\r\nd\r\n0\r\n\r\n").toList ∧
    (iterAppAndPush ⟨[['a'], ['b', 'c'], ['d']], true, true⟩).2 = 0 := by
  refine ⟨?_, ?_, by decide, by decide, by decide⟩
  · intro r
    obtain ⟨cs, rz, hc⟩ := r
    cases rz <;> cases hc <;> simp [iterAppAndPush]
  · intro chunks
    induction chunks with
    | nil => simp [streamBody]
    | cons p rest ih =>
        by_cases hp : p = []
        · simp [streamBody, hp, ih]
        · simp [streamBody, hp, ih]

/-- C2 counterexample to "exactly once": after HEADERS(stream 1) and
DATA(stream 1, END_STREAM) the stream is half-closed-remote; a second
HEADERS frame for stream 1 re-opens it (the code performs no state
check), and a second END_STREAM DATA frame makes it enter
half_closed_remote again — two entries over one connection run. -/
theorem c2_counterexample_two_entries :
    countHCREntries (fun _ => []) HTTP2Connection.init 1
      [⟨0x1, 0, 1, []⟩, ⟨0x0, 0x1, 1, []⟩, ⟨0x1, 0, 1, []⟩, ⟨0x0, 0x1, 1, []⟩] = 2 := by
  decide

theorem process_settings_streams (c : HTTP2Connection) (flags : Nat) (data : List Nat) :
    (c.process_settings flags data).1.streams = c.streams := by
  unfold HTTP2Connection.process_settings
  repeat' split
  all_goals rfl

theorem send_goaway_streams (c : HTTP2Connection) (e : Nat) :
    (c.send_goaway e).streams = c.streams := rfl

theorem process_data_unknown (c : HTTP2Connection) (sid flags : Nat) (data : List Nat)
    (h : dget c.streams sid = none) :
    c.process_data sid flags data = { c with sent := c.sent ++ [mkRstStream sid 0x1] } := by
  unfold HTTP2Connection.process_data
  rw [h]

theorem process_data_known (c : HTTP2Connection) (sid flags : Nat) (data : List Nat)
    (s : HTTP2Stream) (h : dget c.streams sid = some s) :
    c.process_data sid flags data =
      { c with streams := (dset c.streams sid
          (if flags &&& 0x1 ≠ 0 then
             HTTP2Stream.process_complete_request { s with data := s.data ++ data }
           else { s with data := s.data ++ data })) } := by
  unfold HTTP2Connection.process_data
  rw [h]

theorem process_headers_creates_open (decode : List Nat → List (String × String))
    (c : HTTP2Connection) (sid flags : Nat) (data : List Nat) :
    ∃ s', dget (HTTP2Connection.process_headers decode c sid flags data).streams sid =
      some s' ∧ s'.state = "open" := by
  cases h : dget c.streams sid with
  | none =>
      refine ⟨(HTTP2Stream.init sid).process_headers (decode data), ?_, rfl⟩
      simp [HTTP2Connection.process_headers, h, dget_dset_self]
  | some s0 =>
      refine ⟨s0.process_headers (decode data), ?_, rfl⟩
      simp [HTTP2Connection.process_headers, h, dget_dset_self]

theorem process_headers_preserves_other (decode : List Nat → List (String × String))
    (c : HTTP2Connection) (sid flags : Nat) (data : List Nat) (osid : Nat)
    (hne : osid ≠ sid) :
    dget (HTTP2Connection.process_headers decode c sid flags data).streams osid =
      dget c.streams osid := by
  cases h : dget c.streams sid with
  | none =>
      simp [HTTP2Connection.process_headers, h, dget_dset_self, dget_dset_ne, hne]
  | some s0 =>
      simp [HTTP2Connection.process_headers, h, dget_dset_self, dget_dset_ne, hne]

/-- C2 (amended): a DATA frame for an unknown stream id sends RST_STREAM
with PROTOCOL_ERROR (0x1) and leaves the stream map untouched; on an
existing stream the payload is appended to the stream's body, and an
END_STREAM flag moves the stream to half-closed-remote (without the flag
the state is unchanged); a stream just touched by a HEADERS frame is in
state `open`, so half-closed-remote is never entered before a HEADERS
frame created the stream; and once half-closed-remote, the state persists
under every processed frame except a later HEADERS frame for the same
stream — so the transition happens exactly once unless such a HEADERS
frame re-opens the stream (the code performs no state check, allowing
that re-opening; see the counterexample). -/
theorem c2_data_frame_semantics :
    (∀ (c : HTTP2Connection) (sid flags : Nat) (data : List Nat),
       dget c.streams sid = none →
       (c.process_data sid flags data).streams = c.streams ∧
       (c.process_data sid flags data).sent = c.sent ++ [mkRstStream sid 0x1]) ∧
    (∀ (c : HTTP2Connection) (sid flags : Nat) (data : List Nat) (s : HTTP2Stream),
       dget c.streams sid = some s →
       ∃ s', dget (c.process_data sid flags data).streams sid = some s' ∧
         s'.data = s.data ++ data ∧
         (flags &&& 0x1 ≠ 0 → s'.state = "half_closed_remote") ∧
         (flags &&& 0x1 = 0 → s'.state = s.state)) ∧
    (∀ (decode : List Nat → List (String × String)) (c : HTTP2Connection)
       (sid flags : Nat) (data : List Nat),
       ∃ s', dget (HTTP2Connection.process_headers decode c sid flags data).streams sid =
           some s' ∧ s'.state = "open") ∧
    (∀ (decode : List Nat → List (String × String)) (c : HTTP2Connection) (sid : Nat)
       (f : H2Frame) (s : HTTP2Stream),
       dget c.streams sid = some s → s.state = "half_closed_remote" →
       ¬ (f.typ = 0x1 ∧ f.sid = sid) →
       ∃ s', dget (c.process_frame decode f).1.streams sid = some s' ∧
         s'.state = "half_closed_remote") := by
  refine ⟨?_, ?_, ?_, ?_⟩
  · intro c sid flags data h
    rw [process_data_unknown c sid flags data h]
    exact ⟨rfl, rfl⟩
  · intro c sid flags data s h
    rw [process_data_known c sid flags data s h]
    by_cases hf : flags &&& 0x1 ≠ 0
    · rw [if_pos hf]
      refine ⟨HTTP2Stream.process_complete_request { s with data := s.data ++ data },
        ?_, ?_, ?_, ?_⟩
      · exact dget_dset_self _ _ _
      · simp [HTTP2Stream.process_complete_request]
      · intro _; rfl
      · intro hc; exact absurd hc hf
    · rw [if_neg hf]
      refine ⟨{ s with data := s.data ++ data }, ?_, ?_, ?_, ?_⟩
      · exact dget_dset_self _ _ _
      · rfl
      · intro hc; exact absurd hc hf
      · intro _; rfl
  · intro decode c sid flags data
    exact process_headers_creates_open decode c sid flags data
  · intro decode c sid f s h hs hnf
    unfold HTTP2Connection.process_frame
    by_cases ht1 : f.typ = 0x1
    · have hsid : f.sid ≠ sid := fun he => hnf ⟨ht1, he⟩
      rw [if_pos ht1]
      refine ⟨s, ?_, hs⟩
      exact (process_headers_preserves_other decode c f.sid f.flags f.payload sid
        (fun he => hsid he.symm)).trans h
    · rw [if_neg ht1]
      by_cases ht4 : f.typ = 0x4
      · rw [if_pos ht4]
        cases hps : c.process_settings f.flags f.payload with
        | mk c' e =>
            have hstr := process_settings_streams c f.flags f.payload
            rw [hps] at hstr
            cases e with
            | none =>
                refine ⟨s, ?_, hs⟩
                show dget c'.streams sid = some s
                rw [hstr]; exact h
            | some msg =>
                refine ⟨s, ?_, hs⟩
                show dget (c'.send_goaway 0x1).streams sid = some s
                rw [send_goaway_streams, hstr]; exact h
      · rw [if_neg ht4]
        by_cases ht0 : f.typ = 0x0
        · rw [if_pos ht0]
          cases hx : dget c.streams f.sid with
          | none =>
              rw [process_data_unknown c f.sid f.flags f.payload hx]
              exact ⟨s, h, hs⟩
          | some s2 =>
              rw [process_data_known c f.sid f.flags f.payload s2 hx]
              by_cases hsid : f.sid = sid
              · subst hsid
                rw [hx] at h
                injection h with h2
                subst h2
                by_cases hf : f.flags &&& 0x1 ≠ 0
                · rw [if_pos hf]
                  refine ⟨_, dget_dset_self _ _ _, ?_⟩
                  simp [HTTP2Stream.process_complete_request]
                · rw [if_neg hf]
                  refine ⟨_, dget_dset_self _ _ _, ?_⟩
                  simpa using hs
              · refine ⟨s, ?_, hs⟩
                show dget (dset c.streams f.sid _) sid = some s
                rw [dget_dset_ne _ _ _ _ (fun he => hsid he.symm)]
                exact h
        · rw [if_neg ht0]
          by_cases ht8 : f.typ = 0x8
          · rw [if_pos ht8]; exact ⟨s, h, hs⟩
          · rw [if_neg ht8]
            by_cases ht7 : f.typ = 0x7
            · rw [if_pos ht7]; exact ⟨s, h, hs⟩
            · rw [if_neg ht7]; exact ⟨s, h, hs⟩

/-- Witness for the amended C2 theorem at a concrete connection. -/
theorem c2_data_frame_semantics_witness :
    ((HTTP2Connection.init.process_data 1 0 [7]).streams =
        HTTP2Connection.init.streams ∧
      (HTTP2Connection.init.process_data 1 0 [7]).sent =
        HTTP2Connection.init.sent ++ [mkRstStream 1 0x1]) ∧
    (∃ s', dget ((HTTP2Connection.process_headers (fun _ => [])
          HTTP2Connection.init 1 0 []).process_data 1 0x1 [7]).streams 1 = some s' ∧
        s'.state = "half_closed_remote") := by
  constructor
  · exact (c2_data_frame_semantics.1) HTTP2Connection.init 1 0 [7] (by decide)
  · obtain ⟨s0, hs0, hopen⟩ := (c2_data_frame_semantics.2.2.1) (fun _ => [])
      HTTP2Connection.init 1 0 []
    obtain ⟨s', hs', _, hflag, _⟩ := (c2_data_frame_semantics.2.1)
      (HTTP2Connection.process_headers (fun _ => []) HTTP2Connection.init 1 0 [])
      1 0x1 [7] s0 hs0
    exact ⟨s', hs', hflag (by decide)⟩


theorem settingsPairs_fallback (t : List Nat)
    (hf : ∀ (b0 b1 b2 b3 b4 b5 : Nat) (rest : List Nat),
      t ≠ b0 :: b1 :: b2 :: b3 :: b4 :: b5 :: rest) :
    settingsPairs t = [] := by
  rw [settingsPairs.eq_def]
  split
  · exact absurd rfl (hf _ _ _ _ _ _ _)
  · rfl

theorem processSettingsPairs_fallback (settings : List (String × Nat)) (t : List Nat)
    (hf : ∀ (b0 b1 b2 b3 b4 b5 : Nat) (rest : List Nat),
      t ≠ b0 :: b1 :: b2 :: b3 :: b4 :: b5 :: rest) :
    processSettingsPairs settings t = (settings, none) := by
  rw [processSettingsPairs.eq_def]
  split
  · exact absurd rfl (hf _ _ _ _ _ _ _)
  · rfl

theorem processSettingsPairs_all_valid (settings : List (String × Nat)) (data : List Nat)
    (h : ∀ p ∈ settingsPairs data, validateSetting p.1 p.2 = none) :
    processSettingsPairs settings data =
      (applySettingsPairs settings (settingsPairs data), none) := by
  induction settings, data using processSettingsPairs.induct with
  | case1 settings b0 b1 b2 b3 b4 b5 rest idv vlv e hval =>
      exfalso
      have hmem := h (b0 * 256 + b1, ((b2 * 256 + b3) * 256 + b4) * 256 + b5)
        (by rw [settingsPairs]; exact List.mem_cons_self _ _)
      have hv2 : validateSetting idv vlv = none := by simpa using hmem
      exact Option.noConfusion (hv2.symm.trans hval)
  | case2 settings b0 b1 b2 b3 b4 b5 rest idv vlv hval ih =>
      have hrest : ∀ p ∈ settingsPairs rest, validateSetting p.1 p.2 = none := by
        intro p hp
        exact h p (by rw [settingsPairs]; exact List.mem_cons_of_mem _ hp)
      have hval' : validateSetting (b0 * 256 + b1)
          (((b2 * 256 + b3) * 256 + b4) * 256 + b5) = none := hval
      rw [processSettingsPairs, hval', ih hrest, settingsPairs]
      simp [applySettingsPairs]
  | case3 t settings hf =>
      rw [processSettingsPairs_fallback settings t hf, settingsPairs_fallback t hf]
      rfl

theorem processSettingsPairs_has_invalid (settings : List (String × Nat)) (data : List Nat)
    (h : ∃ p ∈ settingsPairs data, validateSetting p.1 p.2 ≠ none) :
    ∃ s' e, processSettingsPairs settings data = (s', some e) := by
  induction settings, data using processSettingsPairs.induct with
  | case1 settings b0 b1 b2 b3 b4 b5 rest idv vlv e hval =>
      refine ⟨settings, e, ?_⟩
      have hval' : validateSetting (b0 * 256 + b1)
          (((b2 * 256 + b3) * 256 + b4) * 256 + b5) = some e := hval
      rw [processSettingsPairs, hval']
  | case2 settings b0 b1 b2 b3 b4 b5 rest idv vlv hval ih =>
      obtain ⟨p, hp, hpe⟩ := h
      rw [settingsPairs] at hp
      rcases List.mem_cons.mp hp with he | he
      · exfalso
        apply hpe
        rw [he]
        exact hval
      · obtain ⟨s', e, hres⟩ := ih ⟨p, he, hpe⟩
        refine ⟨s', e, ?_⟩
        have hval' : validateSetting (b0 * 256 + b1)
            (((b2 * 256 + b3) * 256 + b4) * 256 + b5) = none := hval
        rw [processSettingsPairs, hval', hres]
  | case3 t settings hf =>
      obtain ⟨p, hp, _⟩ := h
      rw [settingsPairs_fallback t hf] at hp
      cases hp

/-- C3: a SETTINGS frame with the ACK flag and a non-empty payload raises
and changes nothing (no setting applied, no frame sent); a non-ACK frame
whose pairs all validate applies every pair to the settings table and
sends exactly one empty-payload SETTINGS ACK; a non-ACK frame containing
an invalid pair raises and sends no ACK (the pairs before the invalid one
remain applied, mirroring the in-place Python dict updates). -/
theorem c3_settings_validation_and_ack :
    (∀ (c : HTTP2Connection) (flags : Nat) (data : List Nat),
       flags &&& 0x1 ≠ 0 → data ≠ [] →
       c.process_settings flags data =
         (c, some "SETTINGS ACK frame with non-empty payload")) ∧
    (∀ (c : HTTP2Connection) (flags : Nat) (data : List Nat),
       flags &&& 0x1 = 0 → data.length % 6 = 0 →
       (∀ p ∈ settingsPairs data, validateSetting p.1 p.2 = none) →
       c.process_settings flags data =
         ({ c with settings := applySettingsPairs c.settings (settingsPairs data),
                   sent := c.sent ++ [settingsAckFrame] }, none)) ∧
    (∀ (c : HTTP2Connection) (flags : Nat) (data : List Nat),
       flags &&& 0x1 = 0 → data.length % 6 = 0 →
       (∃ p ∈ settingsPairs data, validateSetting p.1 p.2 ≠ none) →
       ∃ s' e, c.process_settings flags data =
         ({ c with settings := s' }, some e)) := by
  refine ⟨?_, ?_, ?_⟩
  · intro c flags data hf hd
    unfold HTTP2Connection.process_settings
    rw [if_pos hf, if_pos hd]
  · intro c flags data hf hmod hvalid
    unfold HTTP2Connection.process_settings
    rw [if_neg (show ¬ flags &&& 0x1 ≠ 0 from fun hc => hc hf),
      if_neg (show ¬ data.length % 6 ≠ 0 from fun hc => hc hmod),
      processSettingsPairs_all_valid c.settings data hvalid]
    rfl
  · intro c flags data hf hmod hinv
    obtain ⟨s', e, hres⟩ := processSettingsPairs_has_invalid c.settings data hinv
    refine ⟨s', e, ?_⟩
    unfold HTTP2Connection.process_settings
    rw [if_neg (show ¬ flags &&& 0x1 ≠ 0 from fun hc => hc hf),
      if_neg (show ¬ data.length % 6 ≠ 0 from fun hc => hc hmod), hres]

/-- Witness for C3: an ACK with payload is rejected unchanged; a valid
MAX_FRAME_SIZE update is applied and acknowledged once; an invalid
ENABLE_PUSH value raises without an ACK. -/
theorem c3_settings_witness :
    HTTP2Connection.init.process_settings 0x1 [0] =
      (HTTP2Connection.init, some "SETTINGS ACK frame with non-empty payload") ∧
    HTTP2Connection.init.process_settings 0 [0, 5, 0, 1, 0, 0] =
      ({ HTTP2Connection.init with
          settings := applySettingsPairs HTTP2Connection.init.settings
            (settingsPairs [0, 5, 0, 1, 0, 0]),
          sent := HTTP2Connection.init.sent ++ [settingsAckFrame] }, none) ∧
    ∃ s' e, HTTP2Connection.init.process_settings 0 [0, 2, 0, 0, 0, 5] =
      ({ HTTP2Connection.init with settings := s' }, some e) :=
  ⟨c3_settings_validation_and_ack.1 HTTP2Connection.init 0x1 [0]
      (by decide) (by decide),
   c3_settings_validation_and_ack.2.1 HTTP2Connection.init 0 [0, 5, 0, 1, 0, 0]
      (by decide) (by decide) (by decide),
   c3_settings_validation_and_ack.2.2 HTTP2Connection.init 0 [0, 2, 0, 0, 0, 5]
      (by decide) (by decide) (by decide)⟩

/-- C9: when the whitelist (addresses or networks) is non-empty the
blacklist is never consulted — the decision equals the decision of the
same filter with an emptied blacklist, and equals whitelist membership,
so an address on both lists is allowed; with an empty whitelist an
address is allowed exactly when it parses and matches no blacklist entry;
and a string that does not parse as an address is always rejected. -/
theorem c9_ip_filter_precedence :
    (∀ (f : IPFilter) (a : String),
       (f.whitelist_ips ≠ [] ∨ f.whitelist_networks ≠ []) →
       IPFilter.is_allowed f a =
         IPFilter.is_allowed
           { f with blacklist_ips := [], blacklist_networks := [] } a) ∧
    (∀ (f : IPFilter) (a : String) (ip : Nat), parseIPv4 a = some ip →
       (f.whitelist_ips ≠ [] ∨ f.whitelist_networks ≠ []) →
       IPFilter.is_allowed f a =
         (f.whitelist_ips.contains ip || f.whitelist_networks.any (ipInNetwork ip))) ∧
    (∀ (f : IPFilter) (a : String) (ip : Nat), parseIPv4 a = some ip →
       ip ∈ f.whitelist_ips → ip ∈ f.blacklist_ips →
       IPFilter.is_allowed f a = true) ∧
    (∀ (f : IPFilter) (a : String),
       f.whitelist_ips = [] → f.whitelist_networks = [] →
       (IPFilter.is_allowed f a = true ↔
         ∃ ip, parseIPv4 a = some ip ∧ ip ∉ f.blacklist_ips ∧
           ¬ f.blacklist_networks.any (ipInNetwork ip) = true)) ∧
    (∀ (f : IPFilter) (a : String), parseIPv4 a = none →
       IPFilter.is_allowed f a = false) := by
  have hwl : ∀ (f : IPFilter),
      (f.whitelist_ips ≠ [] ∨ f.whitelist_networks ≠ []) →
      (!f.whitelist_ips.isEmpty || !f.whitelist_networks.isEmpty) = true := by
    intro f h
    rcases h with h | h <;> cases hw : f.whitelist_ips <;>
      cases hn : f.whitelist_networks <;> simp_all
  refine ⟨?_, ?_, ?_, ?_, ?_⟩
  · intro f a hw
    cases hp : parseIPv4 a with
    | none => simp only [IPFilter.is_allowed, hp]
    | some ip =>
        have hw2 := hwl { f with blacklist_ips := [], blacklist_networks := [] } hw
        simp only [IPFilter.is_allowed, hp]
        rw [if_pos (hwl f hw), if_pos hw2]
  · intro f a ip hp hw
    simp only [IPFilter.is_allowed, hp]
    rw [if_pos (hwl f hw)]
  · intro f a ip hp hmem hb
    have hw : (!f.whitelist_ips.isEmpty || !f.whitelist_networks.isEmpty) = true := by
      apply hwl
      left
      intro he
      rw [he] at hmem
      cases hmem
    simp only [IPFilter.is_allowed, hp]
    rw [if_pos hw]
    simp only [Bool.or_eq_true]
    exact Or.inl (by simpa using List.elem_eq_true_of_mem hmem)
  · intro f a hw hn
    cases hp : parseIPv4 a with
    | none => simp [IPFilter.is_allowed, hp]
    | some ip =>
        simp only [IPFilter.is_allowed, hp]
        rw [if_neg (by simp [hw, hn])]
        constructor
        · intro h
          refine ⟨ip, rfl, ?_, ?_⟩
          · intro hmem
            rw [if_pos (List.elem_eq_true_of_mem hmem)] at h
            cases h
          · intro hany
            by_cases hbm : f.blacklist_ips.contains ip = true
            · rw [if_pos hbm] at h; cases h
            · rw [if_neg hbm, if_pos hany] at h; cases h
        · rintro ⟨ip', hip', hnmem, hnany⟩
          injection hip' with hip'
          subst hip'
          rw [if_neg (fun hc => hnmem (List.mem_of_elem_eq_true hc)), if_neg hnany]
  · intro f a hp
    simp only [IPFilter.is_allowed, hp]

/-- Witness for C9: a filter whitelisting 10.0.0.1 and blacklisting the
same address plus 10.0.0.0/8 still allows it; with an empty whitelist the
blacklist governs; an unparsable string is rejected. -/
theorem c9_ip_filter_witness :
    IPFilter.is_allowed ⟨[167772161], [167772161], [], [(167772160, 8)]⟩ "10.0.0.1" =
      IPFilter.is_allowed ⟨[167772161], [], [], []⟩ "10.0.0.1" ∧
    IPFilter.is_allowed ⟨[167772161], [167772161], [], [(167772160, 8)]⟩ "10.0.0.1" = true ∧
    (IPFilter.is_allowed ⟨[], [167772161], [], []⟩ "10.0.0.2" = true ↔
      ∃ ip, parseIPv4 "10.0.0.2" = some ip ∧ ip ∉ [167772161] ∧
        ¬ List.any [] (ipInNetwork ip) = true) ∧
    IPFilter.is_allowed ⟨[], [], [], []⟩ "not-an-ip" = false := by
  refine ⟨?_, ?_, ?_, ?_⟩
  · exact c9_ip_filter_precedence.1 ⟨[167772161], [167772161], [], [(167772160, 8)]⟩
      "10.0.0.1" (by simp)
  · exact c9_ip_filter_precedence.2.2.1 ⟨[167772161], [167772161], [], [(167772160, 8)]⟩
      "10.0.0.1" 167772161 (by decide) (by decide) (by decide)
  · exact c9_ip_filter_precedence.2.2.2.1 ⟨[], [167772161], [], []⟩ "10.0.0.2"
      rfl rfl
  · exact c9_ip_filter_precedence.2.2.2.2 ⟨[], [], [], []⟩ "not-an-ip" (by decide)

theorem cleanup_tokens_subset (rl : RateLimiter) (now : ℚ) :
    ∀ p ∈ (rl.cleanup now).tokens, p ∈ rl.tokens := by
  intro p hp
  simp only [RateLimiter.cleanup] at hp
  split at hp
  · exact (List.mem_filter.mp (List.mem_filter.mp hp).1).1
  · exact (List.mem_filter.mp hp).1

theorem cleanup_fields (rl : RateLimiter) (now : ℚ) :
    (rl.cleanup now).burst = rl.burst ∧ (rl.cleanup now).rate = rl.rate ∧
    (rl.cleanup now).cleanup_interval = rl.cleanup_interval ∧
    (rl.cleanup now).max_entries = rl.max_entries := by
  simp only [RateLimiter.cleanup]
  split <;> exact ⟨rfl, rfl, rfl, rfl⟩

theorem cleanup_tokens_length (rl : RateLimiter) (now : ℚ) :
    (rl.cleanup now).tokens.length ≤ rl.tokens.length := by
  simp only [RateLimiter.cleanup]
  split
  · exact le_trans (List.length_filter_le _ _) (List.length_filter_le _ _)
  · exact List.length_filter_le _ _

theorem cleanup_dget_none (rl : RateLimiter) (now : ℚ) (ip : String)
    (h : dget rl.tokens ip = none) : dget (rl.cleanup now).tokens ip = none := by
  rw [dget_eq_none_iff] at h ⊢
  intro p hp
  exact h p (cleanup_tokens_subset rl now p hp)

theorem cleanup_preserves_bounded (rl : RateLimiter) (now : ℚ)
    (ht : TokensBounded rl) : TokensBounded (rl.cleanup now) := by
  intro p hp
  rw [(cleanup_fields rl now).1]
  exact ht p (cleanup_tokens_subset rl now p hp)

theorem tokensBounded_dset (b : ℚ) (m : List (String × ℚ)) (ip : String) (v : ℚ)
    (hm : ∀ p ∈ m, 0 ≤ p.2 ∧ p.2 ≤ b) (h0 : 0 ≤ v) (h1 : v ≤ b) :
    ∀ p ∈ dset m ip v, 0 ≤ p.2 ∧ p.2 ≤ b := by
  intro p hp
  rcases mem_dset m ip v p hp with he | hmm2
  · rw [he]
    exact ⟨h0, h1⟩
  · exact hm p hmm2

theorem refill_value_bounds (rl : RateLimiter) (cur tp : ℚ) (hr : 0 < rl.rate)
    (hb : 1 ≤ rl.burst) (hc : 0 ≤ rl.cleanup_interval) (hcur : 0 ≤ cur) :
    0 ≤ min rl.burst (cur +
        (if tp < 0 then 0 else
          if tp > rl.cleanup_interval then rl.cleanup_interval else tp) * rl.rate) ∧
    min rl.burst (cur +
        (if tp < 0 then 0 else
          if tp > rl.cleanup_interval then rl.cleanup_interval else tp) * rl.rate) ≤
      rl.burst := by
  constructor
  · apply le_min
    · linarith
    · have htp : 0 ≤ (if tp < 0 then 0 else
          if tp > rl.cleanup_interval then rl.cleanup_interval else tp) := by
        split_ifs with h1 h2
        · exact le_refl 0
        · exact hc
        · linarith
      have := mul_nonneg htp (le_of_lt hr)
      linarith
  · exact min_le_left _ _

theorem refill_bounded (rl : RateLimiter) (ip : String) (now : ℚ)
    (hr : 0 < rl.rate) (hb : 1 ≤ rl.burst) (hc : 0 ≤ rl.cleanup_interval)
    (ht : TokensBounded rl) : TokensBounded (rl.refill ip now) := by
  cases hdg : dget rl.tokens ip with
  | none =>
      simp only [RateLimiter.refill, hdg]
      intro p hp
      exact tokensBounded_dset rl.burst _ ip _ ht (by linarith) (le_refl _) p hp
  | some cur =>
      have hcur := ht (ip, cur) (dget_mem _ _ _ hdg)
      have hv := refill_value_bounds rl cur (now - (dget rl.last_update ip).getD 0)
        hr hb hc hcur.1
      simp only [RateLimiter.refill, hdg]
      intro p hp
      exact tokensBounded_dset rl.burst _ ip _ ht hv.1 hv.2 p hp

theorem refill_fields (rl : RateLimiter) (ip : String) (now : ℚ) :
    (rl.refill ip now).burst = rl.burst ∧ (rl.refill ip now).rate = rl.rate ∧
    (rl.refill ip now).cleanup_interval = rl.cleanup_interval ∧
    (rl.refill ip now).max_entries = rl.max_entries := by
  cases hdg : dget rl.tokens ip with
  | none => simp [RateLimiter.refill, hdg]
  | some cur => simp [RateLimiter.refill, hdg]

theorem refill_fresh (rl : RateLimiter) (ip : String) (now : ℚ)
    (h : dget rl.tokens ip = none) :
    dget (rl.refill ip now).tokens ip = some rl.burst := by
  simp only [RateLimiter.refill, h]
  exact dget_dset_self _ _ _

theorem takeToken_bounded (rl : RateLimiter) (ip : String)
    (ht : TokensBounded rl) : TokensBounded (rl.takeToken ip).2 := by
  unfold RateLimiter.takeToken
  cases hdg : dget rl.tokens ip with
  | none =>
      simp only [hdg, Option.getD_none]
      rw [if_neg (by norm_num)]
      exact ht
  | some v =>
      have hv := ht (ip, v) (dget_mem _ _ _ hdg)
      simp only [hdg, Option.getD_some]
      split
      · rename_i hge
        intro p hp
        exact tokensBounded_dset rl.burst _ ip _ ht (by linarith)
          (by linarith [hv.2]) p hp
      · exact ht

theorem takeToken_fields (rl : RateLimiter) (ip : String) :
    (rl.takeToken ip).2.burst = rl.burst ∧ (rl.takeToken ip).2.rate = rl.rate ∧
    (rl.takeToken ip).2.cleanup_interval = rl.cleanup_interval ∧
    (rl.takeToken ip).2.max_entries = rl.max_entries := by
  simp only [RateLimiter.takeToken]
  split <;> exact ⟨rfl, rfl, rfl, rfl⟩

theorem takeToken_true (rl : RateLimiter) (ip : String)
    (h : (dget rl.tokens ip).getD 0 ≥ 1) : (rl.takeToken ip).1 = true := by
  unfold RateLimiter.takeToken
  rw [if_pos h]

theorem consume_bounded (rl : RateLimiter) (ip : String) (now : ℚ)
    (hr : 0 < rl.rate) (hb : 1 ≤ rl.burst) (hc : 0 ≤ rl.cleanup_interval)
    (ht : TokensBounded rl) : TokensBounded (rl.consume ip now).2 := by
  have h1 := refill_bounded rl ip now hr hb hc ht
  have h2 := takeToken_bounded (rl.refill ip now) ip h1
  unfold RateLimiter.consume
  exact h2

theorem consume_fields (rl : RateLimiter) (ip : String) (now : ℚ) :
    (rl.consume ip now).2.burst = rl.burst ∧ (rl.consume ip now).2.rate = rl.rate ∧
    (rl.consume ip now).2.cleanup_interval = rl.cleanup_interval ∧
    (rl.consume ip now).2.max_entries = rl.max_entries := by
  have h1 := refill_fields rl ip now
  have h2 := takeToken_fields (rl.refill ip now) ip
  unfold RateLimiter.consume
  exact ⟨h2.1.trans h1.1, h2.2.1.trans h1.2.1,
    h2.2.2.1.trans h1.2.2.1, h2.2.2.2.trans h1.2.2.2⟩

theorem consume_fresh_true (rl : RateLimiter) (ip : String) (now : ℚ)
    (hb : 1 ≤ rl.burst) (h : dget rl.tokens ip = none) :
    (rl.consume ip now).1 = true := by
  unfold RateLimiter.consume
  apply takeToken_true
  rw [refill_fresh rl ip now h]
  simpa using hb

theorem is_allowed_bounded (rl : RateLimiter) (ip : String) (now : ℚ)
    (hr : 0 < rl.rate) (hb : 1 ≤ rl.burst) (hc : 0 ≤ rl.cleanup_interval)
    (ht : TokensBounded rl) : TokensBounded (rl.is_allowed ip now).2 := by
  have main : ∀ rl' : RateLimiter, 0 < rl'.rate → 1 ≤ rl'.burst →
      0 ≤ rl'.cleanup_interval → TokensBounded rl' →
      TokensBounded (if (dget rl'.tokens ip).isNone ∧
          rl'.tokens.length ≥ rl'.max_entries then
        (if (rl'.cleanup now).tokens.length ≥ (rl'.cleanup now).max_entries then
          ((false : Bool), rl'.cleanup now)
         else (rl'.cleanup now).consume ip now)
        else rl'.consume ip now).2 := by
    intro rl' hr' hb' hc' ht'
    by_cases hcap : (dget rl'.tokens ip).isNone ∧
        rl'.tokens.length ≥ rl'.max_entries
    · rw [if_pos hcap]
      by_cases hfull : (rl'.cleanup now).tokens.length ≥ (rl'.cleanup now).max_entries
      · rw [if_pos hfull]
        exact cleanup_preserves_bounded rl' now ht'
      · rw [if_neg hfull]
        refine consume_bounded _ ip now ?_ ?_ ?_ (cleanup_preserves_bounded rl' now ht')
        · rw [(cleanup_fields rl' now).2.1]; exact hr'
        · rw [(cleanup_fields rl' now).1]; exact hb'
        · rw [(cleanup_fields rl' now).2.2.1]; exact hc'
    · rw [if_neg hcap]
      exact consume_bounded rl' ip now hr' hb' hc' ht'
  simp only [RateLimiter.is_allowed]
  by_cases hcl : now - rl.last_cleanup > rl.cleanup_interval
  · rw [if_pos hcl]
    refine main (rl.cleanup now) ?_ ?_ ?_ (cleanup_preserves_bounded rl now ht)
    · rw [(cleanup_fields rl now).2.1]; exact hr
    · rw [(cleanup_fields rl now).1]; exact hb
    · rw [(cleanup_fields rl now).2.2.1]; exact hc
  · rw [if_neg hcl]
    exact main rl hr hb hc ht

theorem is_allowed_fields (rl : RateLimiter) (ip : String) (now : ℚ) :
    (rl.is_allowed ip now).2.burst = rl.burst ∧
    (rl.is_allowed ip now).2.rate = rl.rate ∧
    (rl.is_allowed ip now).2.cleanup_interval = rl.cleanup_interval ∧
    (rl.is_allowed ip now).2.max_entries = rl.max_entries := by
  have main : ∀ rl' : RateLimiter,
      (if (dget rl'.tokens ip).isNone ∧
          rl'.tokens.length ≥ rl'.max_entries then
        (if (rl'.cleanup now).tokens.length ≥ (rl'.cleanup now).max_entries then
          ((false : Bool), rl'.cleanup now)
         else (rl'.cleanup now).consume ip now)
        else rl'.consume ip now).2.burst = rl'.burst ∧
      (if (dget rl'.tokens ip).isNone ∧
          rl'.tokens.length ≥ rl'.max_entries then
        (if (rl'.cleanup now).tokens.length ≥ (rl'.cleanup now).max_entries then
          ((false : Bool), rl'.cleanup now)
         else (rl'.cleanup now).consume ip now)
        else rl'.consume ip now).2.rate = rl'.rate ∧
      (if (dget rl'.tokens ip).isNone ∧
          rl'.tokens.length ≥ rl'.max_entries then
        (if (rl'.cleanup now).tokens.length ≥ (rl'.cleanup now).max_entries then
          ((false : Bool), rl'.cleanup now)
         else (rl'.cleanup now).consume ip now)
        else rl'.consume ip now).2.cleanup_interval = rl'.cleanup_interval ∧
      (if (dget rl'.tokens ip).isNone ∧
          rl'.tokens.length ≥ rl'.max_entries then
        (if (rl'.cleanup now).tokens.length ≥ (rl'.cleanup now).max_entries then
          ((false : Bool), rl'.cleanup now)
         else (rl'.cleanup now).consume ip now)
        else rl'.consume ip now).2.max_entries = rl'.max_entries := by
    intro rl'
    by_cases hcap : (dget rl'.tokens ip).isNone ∧
        rl'.tokens.length ≥ rl'.max_entries
    · rw [if_pos hcap]
      by_cases hfull : (rl'.cleanup now).tokens.length ≥ (rl'.cleanup now).max_entries
      · rw [if_pos hfull]
        exact cleanup_fields rl' now
      · rw [if_neg hfull]
        have h1 := consume_fields (rl'.cleanup now) ip now
        have h2 := cleanup_fields rl' now
        exact ⟨h1.1.trans h2.1, h1.2.1.trans h2.2.1,
          h1.2.2.1.trans h2.2.2.1, h1.2.2.2.trans h2.2.2.2⟩
    · rw [if_neg hcap]
      exact consume_fields rl' ip now
  simp only [RateLimiter.is_allowed]
  by_cases hcl : now - rl.last_cleanup > rl.cleanup_interval
  · rw [if_pos hcl]
    have h1 := main (rl.cleanup now)
    have h2 := cleanup_fields rl now
    exact ⟨h1.1.trans h2.1, h1.2.1.trans h2.2.1,
      h1.2.2.1.trans h2.2.2.1, h1.2.2.2.trans h2.2.2.2⟩
  · rw [if_neg hcl]
    exact main rl

theorem is_allowed_fresh_true (rl : RateLimiter) (ip : String) (now : ℚ)
    (hb : 1 ≤ rl.burst) (hdg : dget rl.tokens ip = none)
    (hlen : rl.tokens.length < rl.max_entries) :
    (rl.is_allowed ip now).1 = true := by
  simp only [RateLimiter.is_allowed]
  by_cases hcl : now - rl.last_cleanup > rl.cleanup_interval
  · rw [if_pos hcl]
    have hdg' := cleanup_dget_none rl now ip hdg
    have hlen' : (rl.cleanup now).tokens.length < (rl.cleanup now).max_entries := by
      rw [(cleanup_fields rl now).2.2.2]
      exact lt_of_le_of_lt (cleanup_tokens_length rl now) hlen
    rw [if_neg (fun hcap => absurd hcap.2 (not_le.mpr hlen'))]
    refine consume_fresh_true _ ip now ?_ hdg'
    rw [(cleanup_fields rl now).1]
    exact hb
  · rw [if_neg hcl]
    rw [if_neg (fun hcap => absurd hcap.2 (not_le.mpr hlen))]
    exact consume_fresh_true rl ip now hb hdg

theorem runRateCalls_bounded (calls : List (String × ℚ)) (rl : RateLimiter)
    (hr : 0 < rl.rate) (hb : 1 ≤ rl.burst) (hc : 0 ≤ rl.cleanup_interval)
    (ht : TokensBounded rl) : TokensBounded (runRateCalls rl calls) := by
  induction calls generalizing rl with
  | nil => exact ht
  | cons call rest ih =>
      obtain ⟨ip, now⟩ := call
      rw [runRateCalls]
      have hf := is_allowed_fields rl ip now
      refine ih (rl.is_allowed ip now).2 ?_ ?_ ?_
        (is_allowed_bounded rl ip now hr hb hc ht)
      · rw [hf.2.1]; exact hr
      · rw [hf.1]; exact hb
      · rw [hf.2.2.1]; exact hc

/-- C10: for every sequence of `is_allowed` calls on a limiter with
positive rate and burst (and the constructor's non-negative cleanup
interval), every tracked token count stays within `[0, burst]` after
every call — both the single-step preservation and the preservation over
any call sequence from any bounded state are proved — and the first call
for an address not currently tracked, when the tracked-entry capacity is
not exceeded, returns `True`. -/
theorem c10_rate_limiter_token_bounds :
    (∀ (rl : RateLimiter) (ip : String) (now : ℚ),
       0 < rl.rate → 1 ≤ rl.burst → 0 ≤ rl.cleanup_interval → TokensBounded rl →
       TokensBounded (rl.is_allowed ip now).2) ∧
    (∀ (rl : RateLimiter) (calls : List (String × ℚ)),
       0 < rl.rate → 1 ≤ rl.burst → 0 ≤ rl.cleanup_interval → TokensBounded rl →
       TokensBounded (runRateCalls rl calls)) ∧
    (∀ (rl : RateLimiter) (ip : String) (now : ℚ),
       1 ≤ rl.burst → dget rl.tokens ip = none →
       rl.tokens.length < rl.max_entries →
       (rl.is_allowed ip now).1 = true) :=
  ⟨fun rl ip now hr hb hc ht => is_allowed_bounded rl ip now hr hb hc ht,
   fun rl calls hr hb hc ht => runRateCalls_bounded calls rl hr hb hc ht,
   fun rl ip now hb hdg hlen => is_allowed_fresh_true rl ip now hb hdg hlen⟩

/-- Witness for C10 on the freshly constructed limiter
`RateLimiter(rate=1, burst=2)` (empty token table). -/
theorem c10_rate_limiter_witness :
    TokensBounded ((⟨1, 2, [], [], 3600, 0, 10000⟩ : RateLimiter).is_allowed
      "10.0.0.1" 5).2 ∧
    TokensBounded (runRateCalls (⟨1, 2, [], [], 3600, 0, 10000⟩ : RateLimiter)
      [("10.0.0.1", 5), ("10.0.0.1", 5), ("10.0.0.1", 6)]) ∧
    ((⟨1, 2, [], [], 3600, 0, 10000⟩ : RateLimiter).is_allowed "10.0.0.1" 5).1 = true :=
  ⟨c10_rate_limiter_token_bounds.1 ⟨1, 2, [], [], 3600, 0, 10000⟩ "10.0.0.1" 5
     (by norm_num) (by norm_num) (by norm_num) (fun p hp => absurd hp (by simp)),
   c10_rate_limiter_token_bounds.2.1 ⟨1, 2, [], [], 3600, 0, 10000⟩
     [("10.0.0.1", 5), ("10.0.0.1", 5), ("10.0.0.1", 6)]
     (by norm_num) (by norm_num) (by norm_num) (fun p hp => absurd hp (by simp)),
   c10_rate_limiter_token_bounds.2.2 ⟨1, 2, [], [], 3600, 0, 10000⟩ "10.0.0.1" 5
     (by norm_num) (by decide) (by decide)⟩

theorem decodeAscii_some (bs : List Nat) (h : ∀ b ∈ bs, b < 128) :
    decodeAscii bs = some (String.mk (bs.map Char.ofNat)) := by
  unfold decodeAscii
  rw [if_pos]
  simpa using h

theorem decodeAscii_none (bs : List Nat) (h : ¬ ∀ b ∈ bs, b < 128) :
    decodeAscii bs = none := by
  unfold decodeAscii
  rw [if_neg]
  simpa using h

theorem length_mk_map (bs : List Nat) :
    (String.mk (bs.map Char.ofNat)).length = bs.length := by
  simp [String.length]

theorem contains_mk_map (bs : List Nat) (hb : ∀ b ∈ bs, b < 128) (c : Char) :
    (String.mk (bs.map Char.ofNat)).toList.contains c = true ↔ c.toNat ∈ bs := by
  constructor
  · intro h
    have hm : c ∈ bs.map Char.ofNat := List.mem_of_elem_eq_true h
    obtain ⟨b, hbmem, hbe⟩ := List.mem_map.mp hm
    rw [← (ofNat_eq_iff b (hb b hbmem) c).mp hbe]
    exact hbmem
  · intro h
    apply List.elem_eq_true_of_mem
    exact List.mem_map.mpr ⟨c.toNat, h, Char.ofNat_toNat c⟩

theorem on_header_count_err (st : HTTPParser) (name value : List Nat)
    (h : st.headers_count ≥ 100) :
    st.on_header name value = .error "Too many headers" := by
  unfold HTTPParser.on_header
  simp only [MAX_HEADERS]
  rw [if_pos h]

theorem on_header_name_enc_err (st : HTTPParser) (name value : List Nat)
    (h1 : st.headers_count < 100) (h2 : ¬ ∀ b ∈ name, b < 128) :
    st.on_header name value = .error "Invalid header encoding" := by
  unfold HTTPParser.on_header
  simp only [MAX_HEADERS]
  rw [if_neg (not_le.mpr h1)]
  simp only [decodeAscii_none name h2]

theorem on_header_name_len_err (st : HTTPParser) (name value : List Nat)
    (h1 : st.headers_count < 100) (h2 : ∀ b ∈ name, b < 128)
    (h3 : name.length > 256) :
    st.on_header name value = .error "Header name too long" := by
  unfold HTTPParser.on_header
  simp only [MAX_HEADERS, MAX_HEADER_SIZE]
  rw [if_neg (not_le.mpr h1)]
  simp only [decodeAscii_some name h2]
  rw [if_pos (show (String.mk (name.map Char.ofNat)).length > 256 from
    (length_mk_map name).symm ▸ h3)]

theorem on_header_value_enc_err (st : HTTPParser) (name value : List Nat)
    (h1 : st.headers_count < 100) (h2 : ∀ b ∈ name, b < 128)
    (h3 : name.length ≤ 256) (h4 : ¬ ∀ b ∈ value, b < 128) :
    st.on_header name value = .error "Invalid header encoding" := by
  unfold HTTPParser.on_header
  simp only [MAX_HEADERS, MAX_HEADER_SIZE]
  rw [if_neg (not_le.mpr h1)]
  simp only [decodeAscii_some name h2]
  rw [if_neg (show ¬ (String.mk (name.map Char.ofNat)).length > 256 from
    (length_mk_map name).symm ▸ not_lt.mpr h3)]
  simp only [decodeAscii_none value h4]

theorem on_header_value_len_err (st : HTTPParser) (name value : List Nat)
    (h1 : st.headers_count < 100) (h2 : ∀ b ∈ name, b < 128)
    (h3 : name.length ≤ 256) (h4 : ∀ b ∈ value, b < 128)
    (h5 : value.length > 8192) :
    st.on_header name value = .error "Header value too long" := by
  unfold HTTPParser.on_header
  simp only [MAX_HEADERS, MAX_HEADER_SIZE]
  rw [if_neg (not_le.mpr h1)]
  simp only [decodeAscii_some name h2]
  rw [if_neg (show ¬ (String.mk (name.map Char.ofNat)).length > 256 from
    (length_mk_map name).symm ▸ not_lt.mpr h3)]
  simp only [decodeAscii_some value h4]
  rw [if_pos (show (String.mk (value.map Char.ofNat)).length > 8192 from
    (length_mk_map value).symm ▸ h5)]

theorem on_header_crlf_err (st : HTTPParser) (name value : List Nat)
    (h1 : st.headers_count < 100) (h2 : ∀ b ∈ name, b < 128)
    (h3 : name.length ≤ 256) (h4 : ∀ b ∈ value, b < 128)
    (h5 : value.length ≤ 8192) (h6 : 13 ∈ value ∨ 10 ∈ value) :
    st.on_header name value = .error "Invalid header value" := by
  unfold HTTPParser.on_header
  simp only [MAX_HEADERS, MAX_HEADER_SIZE]
  rw [if_neg (not_le.mpr h1)]
  simp only [decodeAscii_some name h2]
  rw [if_neg (show ¬ (String.mk (name.map Char.ofNat)).length > 256 from
    (length_mk_map name).symm ▸ not_lt.mpr h3)]
  simp only [decodeAscii_some value h4]
  rw [if_neg (show ¬ (String.mk (value.map Char.ofNat)).length > 8192 from
    (length_mk_map value).symm ▸ not_lt.mpr h5)]
  rw [if_pos]
  rcases h6 with h6 | h6
  · right
    exact (contains_mk_map value h4 '\r').mpr h6
  · left
    exact (contains_mk_map value h4 '\n').mpr h6

theorem on_header_ok (st : HTTPParser) (name value : List Nat)
    (h1 : st.headers_count < 100) (h2 : ∀ b ∈ name, b < 128)
    (h3 : name.length ≤ 256) (h4 : ∀ b ∈ value, b < 128)
    (h5 : value.length ≤ 8192) (h6 : 13 ∉ value) (h7 : 10 ∉ value) :
    st.on_header name value = .ok { st with
      headers := dset st.headers (String.mk (name.map Char.ofNat))
        (String.mk (value.map Char.ofNat))
      headers_count := st.headers_count + 1 } := by
  unfold HTTPParser.on_header
  simp only [MAX_HEADERS, MAX_HEADER_SIZE]
  rw [if_neg (not_le.mpr h1)]
  simp only [decodeAscii_some name h2]
  rw [if_neg (show ¬ (String.mk (name.map Char.ofNat)).length > 256 from
    (length_mk_map name).symm ▸ not_lt.mpr h3)]
  simp only [decodeAscii_some value h4]
  rw [if_neg (show ¬ (String.mk (value.map Char.ofNat)).length > 8192 from
    (length_mk_map value).symm ▸ not_lt.mpr h5)]
  rw [if_neg]
  intro hcon
  rcases hcon with hcon | hcon
  · exact h7 ((contains_mk_map value h4 '\n').mp hcon)
  · exact h6 ((contains_mk_map value h4 '\r').mp hcon)

theorem on_body_err (st : HTTPParser) (chunk : List Nat) (hck : st.chunked = false)
    (h : st.body.length + chunk.length > 10485760) :
    st.on_body chunk = .error "Request body too large" := by
  unfold HTTPParser.on_body
  rw [if_neg (by simp [hck])]
  simp only [MAX_BODY_SIZE]
  rw [if_pos h]

theorem on_body_ok (st : HTTPParser) (chunk : List Nat) (hck : st.chunked = false)
    (h : st.body.length + chunk.length ≤ 10485760) :
    st.on_body chunk = .ok { st with
      body := st.body ++ chunk
      body_bytes_read := st.body_bytes_read + chunk.length } := by
  unfold HTTPParser.on_body
  rw [if_neg (by simp [hck])]
  simp only [MAX_BODY_SIZE]
  rw [if_neg (not_lt.mpr h)]

theorem on_header_error_iff (st : HTTPParser) (name value : List Nat) :
    (∃ e, st.on_header name value = .error e) ↔
      ¬ (st.headers_count < 100 ∧ (∀ b ∈ name, b < 128) ∧ name.length ≤ 256 ∧
         (∀ b ∈ value, b < 128) ∧ value.length ≤ 8192 ∧ 13 ∉ value ∧ 10 ∉ value) := by
  constructor
  · rintro ⟨e, he⟩ hall
    obtain ⟨hh1, hh2, hh3, hh4, hh5, hh6, hh7⟩ := hall
    rw [on_header_ok st name value hh1 hh2 hh3 hh4 hh5 hh6 hh7] at he
    cases he
  · intro hnall
    by_cases hh1 : st.headers_count < 100
    case neg => exact ⟨_, on_header_count_err st name value (not_lt.mp hh1)⟩
    by_cases hh2 : ∀ b ∈ name, b < 128
    case neg => exact ⟨_, on_header_name_enc_err st name value hh1 hh2⟩
    by_cases hh3 : name.length ≤ 256
    case neg => exact ⟨_, on_header_name_len_err st name value hh1 hh2 (not_le.mp hh3)⟩
    by_cases hh4 : ∀ b ∈ value, b < 128
    case neg => exact ⟨_, on_header_value_enc_err st name value hh1 hh2 hh3 hh4⟩
    by_cases hh5 : value.length ≤ 8192
    case neg => exact ⟨_, on_header_value_len_err st name value hh1 hh2 hh3 hh4
      (not_le.mp hh5)⟩
    by_cases hh6 : 13 ∈ value
    case pos => exact ⟨_, on_header_crlf_err st name value hh1 hh2 hh3 hh4 hh5
      (Or.inl hh6)⟩
    by_cases hh7 : 10 ∈ value
    case pos => exact ⟨_, on_header_crlf_err st name value hh1 hh2 hh3 hh4 hh5
      (Or.inr hh7)⟩
    exact absurd ⟨hh1, hh2, hh3, hh4, hh5, hh6, hh7⟩ hnall

theorem on_body_error_iff (st : HTTPParser) (chunk : List Nat)
    (hck : st.chunked = false) :
    (∃ e, st.on_body chunk = .error e) ↔
      st.body.length + chunk.length > 10485760 := by
  constructor
  · rintro ⟨e, he⟩
    by_contra hle
    rw [on_body_ok st chunk hck (not_lt.mp hle)] at he
    cases he
  · intro h
    exact ⟨_, on_body_err st chunk hck h⟩

theorem runHeaders_ok (hs : List (List Nat × List Nat)) : ∀ (st : HTTPParser),
    (∀ p ∈ hs, (∀ b ∈ p.1, b < 128) ∧ p.1.length ≤ 256 ∧ (∀ b ∈ p.2, b < 128) ∧
      p.2.length ≤ 8192 ∧ 13 ∉ p.2 ∧ 10 ∉ p.2) →
    st.headers_count + hs.length ≤ 100 →
    ∃ st', st.runHeaders hs = .ok st' ∧ st'.body = st.body ∧
      st'.chunked = st.chunked := by
  induction hs with
  | nil => exact fun st _ _ => ⟨st, rfl, rfl, rfl⟩
  | cons p rest ih =>
      intro st hall hlen
      obtain ⟨n, v⟩ := p
      have hp := hall (n, v) (List.mem_cons_self _ _)
      have hcount : st.headers_count < 100 := by
        simp only [List.length_cons] at hlen
        omega
      rw [HTTPParser.runHeaders,
        on_header_ok st n v hcount hp.1 hp.2.1 hp.2.2.1 hp.2.2.2.1
          hp.2.2.2.2.1 hp.2.2.2.2.2]
      obtain ⟨st', hrun, hbody, hchunk⟩ := ih
        { st with
          headers := dset st.headers (String.mk (n.map Char.ofNat))
            (String.mk (v.map Char.ofNat))
          headers_count := st.headers_count + 1 }
        (fun q hq => hall q (List.mem_cons_of_mem _ hq))
        (by
          simp only [List.length_cons] at hlen
          show st.headers_count + 1 + rest.length ≤ 100
          omega)
      exact ⟨st', hrun, hbody, hchunk⟩

theorem runBody_ok (chunks : List (List Nat)) : ∀ (st : HTTPParser),
    st.chunked = false →
    st.body.length + (chunks.map List.length).sum ≤ 10485760 →
    ∃ st', st.runBody chunks = .ok st' := by
  induction chunks with
  | nil => exact fun st _ _ => ⟨st, rfl⟩
  | cons c rest ih =>
      intro st hck hlen
      simp only [List.map_cons, List.sum_cons] at hlen
      have hle : st.body.length + c.length ≤ 10485760 := by omega
      rw [HTTPParser.runBody, on_body_ok st c hck hle]
      apply ih
      · exact hck
      · simp only [List.length_append]
        omega

/-- C4: the codec's header callback fails exactly when a ceiling is
violated — header count at 100 already reached, a non-ASCII name or
value, a name over 256 bytes, a value over 8KB, or an embedded CR/LF in
the value — and each failure carries the message naming the violated
limit; the body callback (the chunked branch is dead code) fails exactly
when the accumulated body would exceed the 10MB maximum, naming that
limit; and a request within all of these ceilings parses without
error. -/
theorem c4_parser_limit_enforcement :
    (∀ (st : HTTPParser) (name value : List Nat),
       (∃ e, st.on_header name value = .error e) ↔
         ¬ (st.headers_count < 100 ∧ (∀ b ∈ name, b < 128) ∧ name.length ≤ 256 ∧
            (∀ b ∈ value, b < 128) ∧ value.length ≤ 8192 ∧ 13 ∉ value ∧ 10 ∉ value)) ∧
    (∀ (st : HTTPParser) (name value : List Nat), st.headers_count ≥ 100 →
       st.on_header name value = .error "Too many headers") ∧
    (∀ (st : HTTPParser) (name value : List Nat), st.headers_count < 100 →
       ¬ (∀ b ∈ name, b < 128) →
       st.on_header name value = .error "Invalid header encoding") ∧
    (∀ (st : HTTPParser) (name value : List Nat), st.headers_count < 100 →
       (∀ b ∈ name, b < 128) → name.length > 256 →
       st.on_header name value = .error "Header name too long") ∧
    (∀ (st : HTTPParser) (name value : List Nat), st.headers_count < 100 →
       (∀ b ∈ name, b < 128) → name.length ≤ 256 → (∀ b ∈ value, b < 128) →
       value.length > 8192 →
       st.on_header name value = .error "Header value too long") ∧
    (∀ (st : HTTPParser) (name value : List Nat), st.headers_count < 100 →
       (∀ b ∈ name, b < 128) → name.length ≤ 256 → (∀ b ∈ value, b < 128) →
       value.length ≤ 8192 → (13 ∈ value ∨ 10 ∈ value) →
       st.on_header name value = .error "Invalid header value") ∧
    (∀ (st : HTTPParser) (chunk : List Nat), st.chunked = false →
       ((∃ e, st.on_body chunk = .error e) ↔
         st.body.length + chunk.length > 10485760)) ∧
    (∀ (st : HTTPParser) (chunk : List Nat), st.chunked = false →
       st.body.length + chunk.length > 10485760 →
       st.on_body chunk = .error "Request body too large") ∧
    (∀ (hs : List (List Nat × List Nat)) (body : List (List Nat)),
       hs.length ≤ 100 →
       (∀ p ∈ hs, (∀ b ∈ p.1, b < 128) ∧ p.1.length ≤ 256 ∧ (∀ b ∈ p.2, b < 128) ∧
         p.2.length ≤ 8192 ∧ 13 ∉ p.2 ∧ 10 ∉ p.2) →
       (body.map List.length).sum ≤ 10485760 →
       ∃ st', HTTPParser.init.runRequest hs body = .ok st') := by
  refine ⟨on_header_error_iff, on_header_count_err, on_header_name_enc_err,
    on_header_name_len_err, on_header_value_len_err, on_header_crlf_err,
    on_body_error_iff, on_body_err, ?_⟩
  intro hs body hlen hall hbody
  obtain ⟨st1, hrun, hb1, hck1⟩ := runHeaders_ok hs HTTPParser.init hall
    (by show 0 + hs.length ≤ 100; omega)
  obtain ⟨st2, hrun2⟩ := runBody_ok body st1
    (hck1.trans rfl)
    (by rw [hb1]; show 0 + (List.map List.length body).sum ≤ 10485760; omega)
  refine ⟨st2, ?_⟩
  unfold HTTPParser.runRequest
  rw [hrun]
  exact hrun2

/-- Witness for C4: a 257-byte header name fails naming the name limit; a
non-ASCII name fails with the encoding message; a chunk driving the body
over 10MB fails naming the body limit; a small well-formed request parses
without error. -/
theorem c4_parser_witness :
    HTTPParser.init.on_header (List.replicate 257 65) [66] =
      .error "Header name too long" ∧
    HTTPParser.init.on_header [200] [66] = .error "Invalid header encoding" ∧
    HTTPParser.init.on_body (List.replicate 10485761 0) =
      .error "Request body too large" ∧
    ∃ st', HTTPParser.init.runRequest
      [([72, 111, 115, 116], [101, 120])] [[107, 101, 121]] = .ok st' := by
  refine ⟨?_, ?_, ?_, ?_⟩
  · exact c4_parser_limit_enforcement.2.2.2.1 HTTPParser.init
      (List.replicate 257 65) [66] (by decide)
      (by intro b hb; rw [List.eq_of_mem_replicate hb]; norm_num)
      (by simp)
  · exact c4_parser_limit_enforcement.2.2.1 HTTPParser.init [200] [66]
      (by decide) (by decide)
  · exact c4_parser_limit_enforcement.2.2.2.2.2.2.2.1 HTTPParser.init
      (List.replicate 10485761 0) rfl
      (by rw [List.length_replicate]; show 0 + 10485761 > 10485760; norm_num)
  · exact c4_parser_limit_enforcement.2.2.2.2.2.2.2.2
      [([72, 111, 115, 116], [101, 120])] [[107, 101, 121]]
      (by decide) (by decide) (by decide)

theorem readLoop_length (budget : Nat) : ∀ (buffer : List Char)
    (reads : List (List Char)), (readLoop budget buffer reads).length ≤ budget := by
  induction budget with
  | zero => intro buffer reads; simp [readLoop]
  | succ b ih =>
      intro buffer reads
      cases h : splitFirst crlf2Chars buffer with
      | none => simp [readLoop, h]
      | some p =>
          obtain ⟨hp, rest⟩ := p
          simp only [readLoop, h]
          split
          · split
            · simp only [List.length_cons]
              exact Nat.succ_le_succ (ih _ _)
            · simp
          · simp only [List.length_cons]
            exact Nat.succ_le_succ (ih _ _)

theorem readPipelinedRequests_length (reads : List (List Char)) :
    (readPipelinedRequests reads).length ≤ 20 := by
  cases reads with
  | nil => simp [readPipelinedRequests]
  | cons data more =>
      simp only [readPipelinedRequests]
      split
      · simp
      · exact readLoop_length 20 data more

theorem readLoop_wellformed (rs : List PipeReq) : ∀ (budget : Nat),
    (∀ r ∈ rs, WellFormedReq r) →
    readLoop budget (burstBytes rs) [] = (rs.take budget).map PipeReq.bytes := by
  induction rs with
  | nil =>
      intro budget _
      cases budget with
      | zero => simp [readLoop]
      | succ b =>
          have hnone : splitFirst crlf2Chars (burstBytes ([] : List PipeReq)) = none := by
            simp [burstBytes, splitFirst, crlf2Chars]
          simp [readLoop, hnone]
  | cons r rest ih =>
      intro budget hwf
      cases budget with
      | zero => simp [readLoop]
      | succ b =>
          have hwfr := hwf r (List.mem_cons_self _ _)
          have hshape : burstBytes (r :: rest) =
              r.hdr ++ crlf2Chars ++ (r.body ++ burstBytes rest) := by
            simp [burstBytes, PipeReq.bytes, List.append_assoc]
          have hsplit : splitFirst crlf2Chars (burstBytes (r :: rest)) =
              some (r.hdr, r.body ++ burstBytes rest) := by
            rw [hshape]
            exact splitFirst_extend crlf2Chars r.hdr _ hwfr.1
          simp only [readLoop, hsplit]
          rw [hwfr.2]
          by_cases hbody : r.body = []
          · rw [if_neg (by simp [hbody])]
            have hrec := ih b (fun q hq => hwf q (List.mem_cons_of_mem _ hq))
            rw [show r.body ++ burstBytes rest = burstBytes rest by simp [hbody]]
            rw [hrec]
            simp [PipeReq.bytes, hbody, List.take_succ_cons]
          · have hpos : ((r.body.length : Int)) > 0 := by
              cases hb : r.body with
              | nil => exact absurd hb hbody
              | cons x xs => simp
            rw [if_pos hpos]
            have hlenge : ¬ (((r.body ++ burstBytes rest).length : Int) <
                (r.body.length : Int)) := by
              push_neg
              simp only [List.length_append]
              push_cast
              omega
            have hru : readUntil [] (r.body ++ burstBytes rest)
                (r.body.length : Int) = (r.body ++ burstBytes rest, []) := by
              rw [readUntil, if_neg hlenge]
            rw [hru]
            rw [if_pos (not_lt.mp hlenge)]
            have htoNat : ((r.body.length : Int)).toNat = r.body.length :=
              Int.toNat_natCast _
            rw [htoNat]
            rw [show (r.body ++ burstBytes rest).take r.body.length = r.body from
              List.take_left _ _]
            rw [show (r.body ++ burstBytes rest).drop r.body.length =
              burstBytes rest from List.drop_left _ _]
            rw [ih b (fun q hq => hwf q (List.mem_cons_of_mem _ hq))]
            simp [PipeReq.bytes, List.take_succ_cons]

/-- C8: the pipeline handler collects at most 20 requests from one read
burst; for a burst consisting of well-formed requests back to back it
collects exactly the first (up to) 20 of them, in arrival order and with
their bodies intact; and one iteration of the pipeline loop writes the
responses in exactly that arrival order, concatenated on the still-open
connection (the handler never closes the writer between responses). -/
theorem c8_pipelining_order_and_cap :
    (∀ reads : List (List Char), (readPipelinedRequests reads).length ≤ 20) ∧
    (∀ rs : List PipeReq, (∀ r ∈ rs, WellFormedReq r) →
       readPipelinedRequests [burstBytes rs] = (rs.take 20).map PipeReq.bytes) ∧
    (∀ (process : List Char → List Char) (rs : List PipeReq),
       (∀ r ∈ rs, WellFormedReq r) →
       handlePipelineBurst process [burstBytes rs] =
         ((rs.take 20).map (fun r => process r.bytes)).flatten) := by
  have hread : ∀ rs : List PipeReq, (∀ r ∈ rs, WellFormedReq r) →
      readPipelinedRequests [burstBytes rs] = (rs.take 20).map PipeReq.bytes := by
    intro rs hwf
    cases rs with
    | nil => simp [readPipelinedRequests, burstBytes]
    | cons r rest =>
        simp only [readPipelinedRequests]
        rw [if_neg (by simp [burstBytes, PipeReq.bytes, crlf2Chars])]
        exact readLoop_wellformed (r :: rest) 20 hwf
  refine ⟨readPipelinedRequests_length, hread, ?_⟩
  intro process rs hwf
  unfold handlePipelineBurst
  rw [hread rs hwf, List.map_map]
  rfl

/-- Witness for C8 at Scenario C's shape: two pipelined GETs in one burst
plus a POST with a body; the three requests are collected in order and
the responses are written in the same order. -/
theorem c8_pipelining_witness :
    readPipelinedRequests [burstBytes
      [⟨("GET / HTTP/1.1\r\nHost: a").toList, []⟩,
       ⟨("POST /x HTTP/1.1\r\nContent-Length: 9").toList, ("key=value").toList⟩,
       ⟨("GET /2 HTTP/1.1\r\nHost: b").toList, []⟩]] =
      ([⟨("GET / HTTP/1.1\r\nHost: a").toList, []⟩,
        ⟨("POST /x HTTP/1.1\r\nContent-Length: 9").toList, ("key=value").toList⟩,
        ⟨("GET /2 HTTP/1.1\r\nHost: b").toList, []⟩] : List PipeReq).map
        PipeReq.bytes ∧
    handlePipelineBurst (fun r => r ++ ("!").toList) [burstBytes
      [⟨("GET / HTTP/1.1\r\nHost: a").toList, []⟩,
       ⟨("POST /x HTTP/1.1\r\nContent-Length: 9").toList, ("key=value").toList⟩,
       ⟨("GET /2 HTTP/1.1\r\nHost: b").toList, []⟩]] =
      (([⟨("GET / HTTP/1.1\r\nHost: a").toList, []⟩,
         ⟨("POST /x HTTP/1.1\r\nContent-Length: 9").toList, ("key=value").toList⟩,
         ⟨("GET /2 HTTP/1.1\r\nHost: b").toList, []⟩] : List PipeReq).map
        (fun r => r.bytes ++ ("!").toList)).flatten := by
  have hwf : ∀ r ∈ ([⟨("GET / HTTP/1.1\r\nHost: a").toList, []⟩,
       ⟨("POST /x HTTP/1.1\r\nContent-Length: 9").toList, ("key=value").toList⟩,
       ⟨("GET /2 HTTP/1.1\r\nHost: b").toList, []⟩] : List PipeReq),
      WellFormedReq r := by decide
  constructor
  · exact (c8_pipelining_order_and_cap.2.1 _ hwf).trans (by simp)
  · exact (c8_pipelining_order_and_cap.2.2 (fun r => r ++ ("!").toList) _ hwf).trans
      (by simp)
